import Mathlib

/-!
The trust pipeline of stratus: verify, authorize, mint.

A shallow embedding of `main.go`, `internal/identity`,
`internal/vaultclient` and `internal/config` of robertlestak/stratus.

* Go values returned as `(value, error)` are pairs `α × Option Error`
  (`none` is a nil error).
* Code with side effects is a function `St σ → Out σ α`: it threads the
  process state (the outside world `σ` and the global vault client), may
  end in a Go run-time panic, and reports the calls it made as a list of
  `Event`s.
* Library and network calls (AWS SDK, Vault API, net/http, mapstructure,
  encoding/json on provider documents, crypto) are fields of `Env`.
-/

namespace Stratus

/-! ## Data model -/

/-- Go `error`, kept as its message. -/
abbrev Error := String

/-- A value held by an `interface{}` inside a credentials bag. A number is
kept as its text; the float that is not a number is `number "NaN"`. -/
inductive Value where
  | null
  | bool (b : Bool)
  | number (n : String)
  | string (s : String)
  | array (xs : List Value)
  | object (kvs : List (String × Value))

/-- A non-nil `map[string]interface{}`. -/
abbrev Bag := List (String × Value)

/-- The type `map[string]interface{}`; `none` is the nil map. -/
abbrev Credentials := Option Bag

/-- ProviderName contains supported providers. -/
abbrev ProviderName := String

abbrev ProviderAWS : ProviderName := "aws"
abbrev ProviderGCP : ProviderName := "gcp"
abbrev ProviderAZR : ProviderName := "azr"
abbrev ProviderK8S : ProviderName := "k8s"

/-- Identity contains a single identity. -/
structure Identity where
  ID : String := ""
  Provider : ProviderName := ""
  Region : String := ""
  Credentials : Credentials := none
  RequestID : String := ""

/-- IAMMap contains a single identity mapping and the request ID. -/
structure IAMMap where
  Source : Identity := {}
  Target : Identity := {}
  RequestID : String := ""

/-- AWSCredentials contains the credentials and assumed role data. -/
structure AWSCredentials where
  AccessKeyId : String := ""
  SecretAccessKey : String := ""
  SessionToken : String := ""

/-- GCPCredentials is the structure of the GCP ServiceAccount credentials. -/
structure GCPCredentials where
  AuthProviderX509CertURL : String := ""
  AuthURI : String := ""
  ClientEmail : String := ""
  ClientID : String := ""
  ClientX509CertURL : String := ""
  PrivateKey : String := ""
  PrivateKeyID : String := ""
  ProjectID : String := ""
  TokenURI : String := ""
  Type_ : String := ""

/-- K8SIdentity is the identity for a k8s cluster. -/
structure K8SIdentity where
  ClusterName : String := ""
  Namespace : String := ""
  SA : String := ""
  JWT : String := ""
  ClusterHost : String := ""
  ClusterCA : String := ""
  ValidationToken : String := ""

/-- The anonymous struct `k8screds` of `ValidK8S`. -/
structure K8SCreds where
  ClusterName : String := ""
  Namespace : String := ""
  SA : String := ""
  JWT : String := ""

/-- The anonymous struct `k8screds` of `GetK8SSSAFromVault`. -/
structure K8STargetCreds where
  ClusterName : String := ""
  JWT : String := ""

/-- The part of `v1beta1.TokenReview` the program reads or writes. -/
structure TokenReview where
  SpecToken : String := ""
  StatusAuthenticated : Bool := false
  StatusUserUsername : String := ""

/-- The `*api.Client` of the Vault SDK: its address and current token. -/
structure ApiClient where
  Address : String := ""
  Token : String := ""

/-- VaultClient is a single self-contained vault client. -/
structure VaultClient where
  VaultAddr : String := ""
  CIDR : String := ""
  AuthMethod : String := ""
  Role : String := ""
  Path : String := ""
  KubeToken : String := ""
  Client : ApiClient := {}
  Token : String := ""

/-- The `Auth` block of a Vault `api.Secret`. -/
structure SecretAuth where
  ClientToken : String := ""

/-- The part of a Vault `api.Secret` the program reads; `none` is nil. -/
structure Secret where
  Data : Option Bag := none
  Auth : Option SecretAuth := none

/-- An AWS SDK session handle (`*session.Session`). -/
structure Session where
  handle : Nat := 0

/-- The `*credentials.Credentials` providers the program builds. -/
inductive AwsCredentialsProvider where
  | static (accessKeyId secretAccessKey sessionToken : String)
  | assumeRole (sess : Session) (role : String) (roleSessionName : String)

/-- The fields of `aws.Config` the program sets; `none` is a nil pointer. -/
structure AwsConfig where
  Region : String := ""
  Credentials : Option AwsCredentialsProvider := none

/-- The `credentials.Value` returned by `Credentials.Get`. -/
structure AwsCredentialsValue where
  AccessKeyID : String := ""
  SecretAccessKey : String := ""
  SessionToken : String := ""

/-- An `*http.Client`; `RootCAs` is the PEM loaded into its pool, `none`
for the default transport. -/
structure HttpClient where
  RootCAs : Option String := none

/-- An outbound `*http.Request`. -/
structure HttpRequest where
  Method : String := ""
  URL : String := ""
  Header : List (String × String) := []
  Body : String := ""

/-- Header names are compared without regard to ASCII case. -/
def Header.sameKey (a b : String) : Bool :=
  a.data.map Char.toLower == b.data.map Char.toLower

/-- The first value of a header, or the empty string: `Header.Get`. -/
def Header.Get (h : List (String × String)) (key : String) : String :=
  match h.find? (fun kv => Header.sameKey kv.1 key) with
  | some kv => kv.2
  | none => ""

/-- Append a value to a header: `Header.Add`. -/
def Header.Add (h : List (String × String)) (key value : String) : List (String × String) :=
  h ++ [(key, value)]

/-- Replace the values of a header: `Header.Set`. -/
def Header.Set (h : List (String × String)) (key value : String) : List (String × String) :=
  h.filter (fun kv => !Header.sameKey kv.1 key) ++ [(key, value)]

/-- A `tls.Certificate`: its chain of DER certificates, `Certificate[0]`
and the rest. -/
structure TlsCertificate where
  Leaf : String := ""
  Chain : List String := []

/-! ## Effects -/

/-- Calls recorded while a request is served. -/
inductive Event where
  | newRequestID
  | Valid (id : Identity)
  | ValidAWS (id : Identity)
  | ValidGCP (id : Identity)
  | ValidK8S (id : Identity)
  | FindIDinMap (im : IAMMap) (iamMap : List IAMMap)
  | GetCredentials (im : IAMMap)
  | GetGCPSAFromVault (id : Identity)
  | CreateAWSSession (id : Identity)
  | GetK8SSSAFromVault (id : Identity)
  | awsNewSession (cfg : AwsConfig)
  | stsGetCallerIdentity (cfg : AwsConfig)
  | awsCredentialsGet
  | httpDo (req : HttpRequest)
  | vaultRead (path : String)
  | vaultWrite (path : String)

/-- The process state a request can touch: the outside world and the
global `vaultclient.Client`. -/
structure St (σ : Type) where
  world : σ
  vc : VaultClient := {}

/-- How a Go call ends: it returns, or it panics. -/
inductive Res (α : Type) where
  | ret (a : α)
  | panicked (msg : String)
  deriving DecidableEq

/-- Outcome of an effectful call: result, new state, calls made. -/
structure Out (σ α : Type) where
  res : Res α
  st : St σ
  events : List Event := []

/-- Effectful code over the process state. -/
def M (σ α : Type) : Type := St σ → Out σ α

namespace M

variable {σ α β : Type}

/-- Return a value without touching the state. -/
def ret (a : α) : M σ α := fun s => { res := .ret a, st := s }

/-- Sequencing: a panic stops the computation. -/
def andThen (m : M σ α) (f : α → M σ β) : M σ β := fun s =>
  let o := m s
  match o.res with
  | .ret a =>
    let o2 := f a o.st
    { res := o2.res, st := o2.st, events := o.events ++ o2.events }
  | .panicked e => { res := .panicked e, st := o.st, events := o.events }

/-- A Go run-time panic. -/
def crash (msg : String) : M σ α := fun s => { res := .panicked msg, st := s }

/-- Record a call. -/
def emit (e : Event) : M σ Unit := fun s => { res := .ret (), st := s, events := [e] }

/-- Run a call against the outside world. -/
def world (f : σ → α × σ) : M σ α := fun s =>
  let r := f s.world
  { res := .ret r.1, st := { s with world := r.2 } }

/-- Read the global vault client. -/
def getVC : M σ VaultClient := fun s => { res := .ret s.vc, st := s }

/-- Write the global vault client. -/
def setVC (vc : VaultClient) : M σ Unit := fun s => { res := .ret (), st := { s with vc := vc } }

end M

instance {σ : Type} : Monad (M σ) where
  pure := M.ret
  bind := M.andThen

/-- The libraries and remote services the program calls. -/
structure Env (σ : Type) where
  /-- **os.Getenv** -/
  getenv : String → String
  /-- **uuid.New().String()** -/
  uuidNew : σ → String × σ
  /-- **json.Marshal** of a credentials bag -/
  jsonMarshal : Credentials → Except Error String
  /-- **mapstructure.Decode** of a bag into `AWSCredentials` -/
  decodeAWSCredentials : Credentials → Except Error AWSCredentials
  /-- **mapstructure.Decode** of `AWSCredentials` into an existing bag:
  the bag afterwards and the error -/
  encodeAWSCredentials : AWSCredentials → Credentials → Credentials × Option Error
  /-- **session.NewSession** -/
  awsNewSession : AwsConfig → σ → Except Error Session × σ
  /-- **sts.New(sess, cfg).GetCallerIdentity**: the ARN -/
  stsGetCallerIdentity : Session → AwsConfig → σ → Except Error String × σ
  /-- **cfg.Credentials.Get** -/
  awsCredentialsGet : AwsCredentialsProvider → σ → Except Error AwsCredentialsValue × σ
  /-- **json.Unmarshal** of a document into `GCPCredentials` -/
  unmarshalGCPCredentials : String → Except Error GCPCredentials
  /-- **http.NewRequest** on a method and URL: the error, if any -/
  httpNewRequest : String → String → Option Error
  /-- **http.Client.Do**: the response body -/
  httpDo : HttpClient → HttpRequest → σ → Except Error String × σ
  /-- **json.Decode** of a response body into `map[string]string` -/
  decodeStringMap : String → Except Error (List (String × String))
  /-- **tls.X509KeyPair**; a chain it returns has a leaf -/
  x509KeyPair : String → String → Except Error TlsCertificate
  /-- **x509.ParseCertificate** -/
  parseCertificate : String → Except Error Unit
  /-- **mapstructure.Decode** of a bag into the `k8screds` of `ValidK8S` -/
  decodeK8SCreds : Credentials → Except Error K8SCreds
  /-- **mapstructure.Decode** of a bag into the `k8screds` of `GetK8SSSAFromVault` -/
  decodeK8STargetCreds : Credentials → Except Error K8STargetCreds
  /-- **mapstructure.Decode** of a bag into an existing `K8SIdentity` -/
  decodeK8SIdentity : Credentials → K8SIdentity → Except Error K8SIdentity
  /-- **base64.StdEncoding.DecodeString** -/
  base64Decode : String → Except Error String
  /-- **json.Marshal** of a `TokenReview` -/
  marshalTokenReview : TokenReview → Except Error String
  /-- **json.Decode** of a response body into an existing `TokenReview`:
  the review afterwards and the error -/
  decodeTokenReview : String → TokenReview → TokenReview × Option Error
  /-- **Logical().Read** on the Vault client -/
  vaultRead : ApiClient → String → σ → Except Error (Option Secret) × σ
  /-- **Logical().Write** on the Vault client -/
  vaultWrite : ApiClient → String → Bag → σ → Except Error (Option Secret) × σ

/-! ## internal/vaultclient -/

/-- Login creates a vault token with the k8s auth provider. -/
def Login {σ : Type} (env : Env σ) : M σ (String × Option Error) := do
  let vc ← M.getVC
  let options : Bag := [("role", .string vc.Role), ("jwt", .string vc.KubeToken)]
  let path := "auth/" ++ vc.AuthMethod ++ "/login"
  M.emit (.vaultWrite path)
  let r ← M.world (env.vaultWrite vc.Client path options)
  match r with
  | .error err => pure ("", some err)
  | .ok none => M.crash "nil pointer dereference: secret"
  | .ok (some secret) =>
    match secret.Auth with
    | none => M.crash "nil pointer dereference: secret.Auth"
    | some auth =>
      let tok := auth.ClientToken
      M.setVC { vc with Token := tok, Client := { vc.Client with Token := tok } }
      pure (tok, none)

/-- NewToken generate a new token for session. If LOCAL env var is set and
the token is as well, the login is skipped and the token is used instead. -/
def NewToken {σ : Type} (env : Env σ) : M σ (String × Option Error) := do
  let vc ← M.getVC
  if env.getenv "LOCAL" ≠ "" ∧ vc.Token ≠ "" then
    M.setVC { vc with Client := { vc.Client with Token := vc.Token } }
    pure (vc.Token, none)
  else
    Login env

/-- The tenant path under which every secret is read. -/
def kvRoot : String := "devops/data/stratus-dev/"

/-- GetKVSecret retrieves a kv secret from vault. -/
def GetKVSecret {σ : Type} (env : Env σ) (s : String) : M σ (Credentials × Option Error) := do
  let vc ← M.getVC
  if s = "" then
    pure (none, some "secret path required")
  else
    let s := kvRoot ++ s
    M.emit (.vaultRead s)
    let r ← M.world (env.vaultRead vc.Client s)
    match r with
    | .error err => pure (none, some err)
    | .ok secret =>
      match secret.bind (fun x => x.Data) with
      | none => pure (none, some "secret not found")
      | some data =>
        match data.lookup "data" with
        | some (.object kvs) => pure (some kvs, none)
        | _ => M.crash "interface conversion: interface is not map[string]interface"

/-- GetKVSecretRetry will login and retry secret access on failure
to gracefully handle token expiration. -/
def GetKVSecretRetry {σ : Type} (env : Env σ) (s : String) : M σ (Credentials × Option Error) := do
  let (sec, err) ← GetKVSecret env s
  match err with
  | some _ =>
    let (_, terr) ← NewToken env
    match terr with
    | some te => pure (sec, some te)
    | none =>
      let (sec, err) ← GetKVSecret env s
      match err with
      | some e => pure (sec, some e)
      | none => pure (sec, none)
  | none => pure (sec, err)

/-! ## internal/identity: AWS -/

/-- CreateSession creates a new session for the given role and credentials,
tracking with the provided id. The session and the error are returned as
one value: the source returns a session exactly when the error is nil. -/
def CreateSession {σ : Type} (env : Env σ) (region : String) (role : String)
    (creds : Option AwsCredentialsProvider) (id : String) :
    M σ (Except Error Session × AwsConfig) := do
  let cfg : AwsConfig := { Region := region }
  let cfg := if creds.isSome then { cfg with Credentials := creds } else cfg
  M.emit (.awsNewSession cfg)
  let r ← M.world (env.awsNewSession cfg)
  match r with
  | .error err => pure (.error err, cfg)
  | .ok sess =>
    let cfg :=
      if role ≠ "" then
        { cfg with Credentials := some (.assumeRole sess role ("stratus-" ++ id)) }
      else cfg
    pure (.ok sess, cfg)

/-- Returns the ARN of the caller: `stsGetCallerIdentity`. -/
def stsGetCallerIdentity {σ : Type} (env : Env σ) (region : String) (role : String)
    (creds : Option AwsCredentialsProvider) (id : String) : M σ (String × Option Error) := do
  let (sess, cfg) ← CreateSession env region role creds id
  match sess with
  | .error e => pure ("", some e)
  | .ok sess =>
    M.emit (.stsGetCallerIdentity cfg)
    let r ← M.world (env.stsGetCallerIdentity sess cfg)
    match r with
    | .error e => pure ("", some e)
    | .ok arn => pure (arn, none)

/-- ValidAWS checks if the given credentials are valid against AWS STS. -/
def ValidAWS {σ : Type} (env : Env σ) (id : Identity) : M σ Bool := do
  M.emit (.ValidAWS id)
  if id.Provider ≠ "aws" then
    pure false
  else
    match env.decodeAWSCredentials id.Credentials with
    | .error _ => pure false
    | .ok ac =>
      if ac.AccessKeyId = "" ∨ ac.SecretAccessKey = "" then
        pure false
      else
        let creds := AwsCredentialsProvider.static ac.AccessKeyId ac.SecretAccessKey ac.SessionToken
        let (arn, err) ← stsGetCallerIdentity env id.Region "" (some creds) id.RequestID
        match err with
        | some _ => pure false
        | none =>
          if id.ID ≠ arn then
            pure false
          else
            pure true

/-- CreateAWSSession creates a new session using the identity credentials.
The receiver is a pointer: the identity afterwards is returned as well. -/
def CreateAWSSession {σ : Type} (env : Env σ) (id : Identity) :
    M σ ((Credentials × Option Error) × Identity) := do
  M.emit (.CreateAWSSession id)
  let (sess, cfg) ← CreateSession env id.Region id.ID none id.RequestID
  match sess with
  | .error e => pure ((none, some e), id)
  | .ok sess =>
    M.emit (.stsGetCallerIdentity cfg)
    let r ← M.world (env.stsGetCallerIdentity sess cfg)
    match r with
    | .error e => pure ((id.Credentials, some e), id)
    | .ok _ =>
      match cfg.Credentials with
      | none => M.crash "nil pointer dereference: cfg.Credentials"
      | some provider =>
        M.emit .awsCredentialsGet
        let g ← M.world (env.awsCredentialsGet provider)
        match g with
        | .error cerr => pure ((id.Credentials, some cerr), id)
        | .ok cd =>
          let ac : AWSCredentials :=
            { AccessKeyId := cd.AccessKeyID
              SecretAccessKey := cd.SecretAccessKey
              SessionToken := cd.SessionToken }
          let (bag, merr) := env.encodeAWSCredentials ac id.Credentials
          let id := { id with Credentials := bag }
          match merr with
          | some me => pure ((id.Credentials, some me), id)
          | none => pure ((id.Credentials, none), id)

/-! ## internal/identity: GCP -/

/-- GetGCPSAFromVault returns the GCP ServiceAccount credentials from Vault.
The receiver is a pointer: the identity afterwards is returned as well. -/
def GetGCPSAFromVault {σ : Type} (env : Env σ) (id : Identity) :
    M σ ((Credentials × Option Error) × Identity) := do
  M.emit (.GetGCPSAFromVault id)
  let (s, serr) ← GetKVSecretRetry env id.ID
  match serr with
  | some e => pure ((s, some e), id)
  | none =>
    let id := { id with Credentials := s }
    pure ((id.Credentials, none), id)

/-- Retrieves the public certificate for a GCP Service Account: `getClientCert`. -/
def GCPCredentials.getClientCert {σ : Type} (env : Env σ) (c : GCPCredentials) :
    M σ (String × Option Error) := do
  let hc : HttpClient := {}
  match env.httpNewRequest "GET" c.ClientX509CertURL with
  | some err => pure ("", some err)
  | none =>
    let req : HttpRequest := { Method := "GET", URL := c.ClientX509CertURL }
    M.emit (.httpDo req)
    let res ← M.world (env.httpDo hc req)
    match res with
    | .error rerr => pure ("", some rerr)
    | .ok body =>
      match env.decodeStringMap body with
      | .error jerr => pure ("", some jerr)
      | .ok rd =>
        let rv := match rd.lookup c.PrivateKeyID with
          | some r => r
          | none => ""
        pure (rv, none)

/-- Validate validates the GCP ServiceAccount credentials against the GCP
Public Key. -/
def GCPCredentials.Validate {σ : Type} (env : Env σ) (c : GCPCredentials) :
    M σ (Option Error) := do
  let (cc, err) ← c.getClientCert env
  match err with
  | some e => pure (some e)
  | none =>
    match env.x509KeyPair cc c.PrivateKey with
    | .error e => pure (some e)
    | .ok cert =>
      match env.parseCertificate cert.Leaf with
      | .error e => pure (some e)
      | .ok _ => pure none

/-- ValidGCP checks if the GCP ServiceAccount credentials are valid. -/
def ValidGCP {σ : Type} (env : Env σ) (id : Identity) : M σ Bool := do
  M.emit (.ValidGCP id)
  if id.Provider ≠ "gcp" then
    pure false
  else if id.Credentials.isNone then
    pure false
  else
    match env.jsonMarshal id.Credentials with
    | .error _ => pure false
    | .ok jd =>
      match env.unmarshalGCPCredentials jd with
      | .error _ => pure false
      | .ok c =>
        if c.ClientEmail = "" ∨ c.ClientX509CertURL = "" then
          pure false
        else if id.ID ≠ c.ClientEmail then
          pure false
        else
          let verr ← c.Validate env
          if verr.isSome then
            pure false
          else
            pure true

/-! ## internal/identity: Kubernetes -/

/-- GetValidation retrieves the validateion SA token from vault. The
receiver is a pointer: the identity afterwards is returned as well. -/
def K8SIdentity.GetValidation {σ : Type} (env : Env σ) (k : K8SIdentity) (_cluster : String) :
    M σ (Option Error × K8SIdentity) := do
  let (s, serr) ← GetKVSecretRetry env (k.ClusterName ++ "/validation")
  match serr with
  | some e => pure (some e, k)
  | none =>
    match env.decodeK8SIdentity s k with
    | .error e => pure (some e, k)
    | .ok k2 => pure (none, k2)

/-- The TokenReview endpoint of a cluster. -/
def tokenReviewPath : String := "/apis/authentication.k8s.io/v1beta1/tokenreviews"

/-- Validate validates the k8s identity against the k8s api. -/
def K8SIdentity.Validate {σ : Type} (env : Env σ) (k : K8SIdentity) :
    M σ (TokenReview × Option Error) := do
  let trr : TokenReview := {}
  let (gerr, k) ← k.GetValidation env k.ClusterName
  match gerr with
  | some e => pure (trr, some e)
  | none =>
    match env.base64Decode k.ClusterCA with
    | .error berr => pure (trr, some berr)
    | .ok sDec =>
      let c : HttpClient := { RootCAs := some sDec }
      let tr : TokenReview := { SpecToken := k.JWT }
      match env.marshalTokenReview tr with
      | .error err => pure (trr, some err)
      | .ok b =>
        match env.httpNewRequest "POST" (k.ClusterHost ++ tokenReviewPath) with
        | some err => pure (trr, some err)
        | none =>
          let req : HttpRequest :=
            { Method := "POST", URL := k.ClusterHost ++ tokenReviewPath, Body := b }
          match env.base64Decode k.ValidationToken with
          | .error berr => pure (trr, some berr)
          | .ok tDec =>
            let req := { req with Header := Header.Add req.Header "Authorization" ("Bearer " ++ tDec) }
            let req := { req with Header := Header.Set req.Header "Content-Type" "application/json" }
            M.emit (.httpDo req)
            let resp ← M.world (env.httpDo c req)
            match resp with
            | .error err => pure (trr, some err)
            | .ok body =>
              let (trr, err) := env.decodeTokenReview body trr
              match err with
              | some e => pure (trr, some e)
              | none =>
                if !trr.StatusAuthenticated then
                  pure (trr, some "token not authenticated")
                else
                  pure (trr, none)

/-- ValidK8S extends the Identity to validate a k8s identity. -/
def ValidK8S {σ : Type} (env : Env σ) (id : Identity) : M σ Bool := do
  M.emit (.ValidK8S id)
  if id.Provider ≠ "k8s" then
    pure false
  else
    match env.decodeK8SCreds id.Credentials with
    | .error _ => pure false
    | .ok k8screds =>
      if k8screds.JWT = "" then
        pure false
      else
        let k : K8SIdentity :=
          { ClusterName := k8screds.ClusterName
            Namespace := k8screds.Namespace
            SA := k8screds.SA
            JWT := k8screds.JWT }
        let (tr, err) ← k.Validate env
        match err with
        | some _ => pure false
        | none =>
          if tr.StatusUserUsername ≠ id.ID then
            pure false
          else
            pure true

/-- GetK8SSSAFromVault retrieves the configured k8s SSA from vault. The
receiver is a pointer: the identity afterwards is returned as well. -/
def GetK8SSSAFromVault {σ : Type} (env : Env σ) (id : Identity) :
    M σ ((Credentials × Option Error) × Identity) := do
  M.emit (.GetK8SSSAFromVault id)
  match env.decodeK8STargetCreds id.Credentials with
  | .error err => pure ((none, some err), id)
  | .ok k8screds =>
    let (s, serr) ← GetKVSecretRetry env (k8screds.ClusterName ++ "/" ++ id.ID)
    match serr with
    | some e => pure ((s, some e), id)
    | none =>
      let id := { id with Credentials := s }
      pure ((id.Credentials, none), id)

/-! ## internal/identity: dispatch and policy lookup -/

/-- Valid checks the identities validity with the given provider. -/
def Valid {σ : Type} (env : Env σ) (id : Identity) : M σ Bool := do
  M.emit (.Valid id)
  if id.Provider = "" then
    pure false
  else if id.Provider = ProviderAWS then
    ValidAWS env id
  else if id.Provider = ProviderGCP then
    ValidGCP env id
  else if id.Provider = ProviderK8S then
    ValidK8S env id
  else
    pure false

/-- FindIDinMap returns the IAMMap for the given source identity: the
mapping found (`&iam, nil`) or the error (`nil, err`). -/
def FindIDinMap (im : IAMMap) : List IAMMap → Except Error IAMMap
  | [] => .error "identity not found"
  | iam :: rest =>
    if im.Source.ID = iam.Source.ID ∧ im.Target.ID = iam.Target.ID then
      .ok iam
    else
      FindIDinMap im rest

/-- GetCredentials returns the target credentials for the given source
identity. The receiver is a pointer: the mapping afterwards is returned
as well. -/
def GetCredentials {σ : Type} (env : Env σ) (im : IAMMap) :
    M σ ((Credentials × Option Error) × IAMMap) := do
  M.emit (.GetCredentials im)
  if im.Target.Provider = ProviderGCP then
    let (r, t) ← GetGCPSAFromVault env im.Target
    pure (r, { im with Target := t })
  else if im.Target.Provider = ProviderAWS then
    let (r, t) ← CreateAWSSession env im.Target
    pure (r, { im with Target := t })
  else if im.Target.Provider = ProviderK8S then
    let (r, t) ← GetK8SSSAFromVault env im.Target
    pure (r, { im with Target := t })
  else
    pure ((none, some "provider not supported"), im)

/-! ## encoding/json on the request body

`json.NewDecoder(r.Body).Decode(&mm)` first scans one JSON value from the
body and fails, leaving `mm` untouched, when there is none. It then
stores the value into the struct: a member whose name matches a field
(case-insensitively) is stored into it, other members are skipped, fields
without a member keep the value they had, `null` leaves strings and
structs as they are, and a member of the wrong JSON type is skipped; the
first such mismatch is the error returned once every member is done. -/

/-- Case folding of member names: ASCII case, and the two non-ASCII runes
that fold to ASCII letters. -/
def foldRune (c : Char) : Char :=
  if c = Char.ofNat 0x17F then 's' else if c = Char.ofNat 0x212A then 'k' else c.toLower

/-- Whether a JSON member name selects the struct field tagged `name`. -/
def fieldMatches (key name : String) : Bool :=
  key.data.map foldRune == name.data.map foldRune

/-- The earliest error wins. -/
def firstError (a b : Option Error) : Option Error :=
  match a with
  | some e => some e
  | none => b

/-- Store a JSON value into a `string` field. -/
def decodeStringField (v : Value) (old : String) : String × Option Error :=
  match v with
  | .string s => (s, none)
  | .null => (old, none)
  | _ => (old, some "json: cannot unmarshal value into Go value of type string")

/-- Assignment `m[k] = v` on a bag. -/
def Bag.set (m : Bag) (k : String) (v : Value) : Bag :=
  m.filter (fun kv => kv.1 ≠ k) ++ [(k, v)]

/-- Store a JSON value into a `map[string]interface{}` field. -/
def decodeBagField (v : Value) (old : Credentials) : Credentials × Option Error :=
  match v with
  | .object kvs => (some (kvs.foldl (fun m kv => Bag.set m kv.1 kv.2) (old.getD [])), none)
  | .null => (none, none)
  | _ => (old, some "json: cannot unmarshal value into Go value of type map[string]interface")

/-- Store one member of a JSON object into an `Identity`. -/
def decodeIdentityMember (id : Identity) (kv : String × Value) : Identity × Option Error :=
  if fieldMatches kv.1 "id" then
    let r := decodeStringField kv.2 id.ID
    ({ id with ID := r.1 }, r.2)
  else if fieldMatches kv.1 "provider" then
    let r := decodeStringField kv.2 id.Provider
    ({ id with Provider := r.1 }, r.2)
  else if fieldMatches kv.1 "region" then
    let r := decodeStringField kv.2 id.Region
    ({ id with Region := r.1 }, r.2)
  else if fieldMatches kv.1 "credentials" then
    let r := decodeBagField kv.2 id.Credentials
    ({ id with Credentials := r.1 }, r.2)
  else if fieldMatches kv.1 "request_id" then
    let r := decodeStringField kv.2 id.RequestID
    ({ id with RequestID := r.1 }, r.2)
  else
    (id, none)

/-- Store a JSON value into an `Identity`. -/
def decodeIdentity (v : Value) (old : Identity) : Identity × Option Error :=
  match v with
  | .object kvs =>
    kvs.foldl (fun acc kv =>
      let r := decodeIdentityMember acc.1 kv
      (r.1, firstError acc.2 r.2)) (old, none)
  | .null => (old, none)
  | _ => (old, some "json: cannot unmarshal value into Go value of type identity.Identity")

/-- Store one member of a JSON object into an `IAMMap`. -/
def decodeIAMMapMember (mm : IAMMap) (kv : String × Value) : IAMMap × Option Error :=
  if fieldMatches kv.1 "source" then
    let r := decodeIdentity kv.2 mm.Source
    ({ mm with Source := r.1 }, r.2)
  else if fieldMatches kv.1 "target" then
    let r := decodeIdentity kv.2 mm.Target
    ({ mm with Target := r.1 }, r.2)
  else if fieldMatches kv.1 "requestId" then
    let r := decodeStringField kv.2 mm.RequestID
    ({ mm with RequestID := r.1 }, r.2)
  else
    (mm, none)

/-- The call `json.NewDecoder(r.Body).Decode(&mm)`; the body is the JSON
value scanned from it, `none` when the bytes hold no JSON value. -/
def jsonDecodeIAMMap (body : Option Value) (mm : IAMMap) : IAMMap × Option Error :=
  match body with
  | none => (mm, some "invalid character or unexpected end of JSON input")
  | some (.object kvs) =>
    kvs.foldl (fun acc kv =>
      let r := decodeIAMMapMember acc.1 kv
      (r.1, firstError acc.2 r.2)) (mm, none)
  | some .null => (mm, none)
  | some _ => (mm, some "json: cannot unmarshal value into Go value of type identity.IAMMap")

/-! ## main.go -/

/-- The part of an `*http.Request` the handler reads. -/
structure Request where
  Header : List (String × String) := []
  Body : Option Value := none

/-- What the handler has written to its `http.ResponseWriter`; `Status`
is `none` until a status line is written. -/
structure ResponseWriter where
  Header : List (String × String) := []
  Status : Option Nat := none
  Body : String := ""
  deriving DecidableEq

def StatusOK : Nat := 200
def StatusBadRequest : Nat := 400
def StatusUnauthorized : Nat := 401
def StatusNotFound : Nat := 404
def StatusInternalServerError : Nat := 500

/-- The first call fixes the status: `w.WriteHeader`. -/
def ResponseWriter.WriteHeader (w : ResponseWriter) (code : Nat) : ResponseWriter :=
  match w.Status with
  | some _ => w
  | none => { w with Status := some code }

/-- Writing a body before any status sends 200: `w.Write`. -/
def ResponseWriter.Write (w : ResponseWriter) (b : String) : ResponseWriter :=
  let w := w.WriteHeader StatusOK
  { w with Body := w.Body ++ b }

/-- Reply with a plain-text error: `http.Error`. -/
def httpError (w : ResponseWriter) (error : String) (code : Nat) : ResponseWriter :=
  let h := w.Header.filter (fun kv => !Header.sameKey kv.1 "Content-Length")
  let h := Header.Set h "Content-Type" "text/plain; charset=utf-8"
  let h := Header.Set h "X-Content-Type-Options" "nosniff"
  let w := { w with Header := h }
  let w := w.WriteHeader code
  w.Write (error ++ "\n")

/-- Returns a uuid: `newRequestID`. -/
def newRequestID {σ : Type} (env : Env σ) : M σ String := do
  M.emit .newRequestID
  M.world env.uuidNew

/-- Lines 67 to 70 of `main.go`: the request id and the source credentials
are put on the mapping found, and its target credentials on the request.
Returns the request and the mapping afterwards. -/
def readdRequest (mm i : IAMMap) : IAMMap × IAMMap :=
  let i := { i with Source := { i.Source with RequestID := mm.RequestID } }
  let i := { i with Target := { i.Target with RequestID := mm.RequestID } }
  let i := { i with Source := { i.Source with Credentials := mm.Source.Credentials } }
  let mm := { mm with Target := { mm.Target with Credentials := i.Target.Credentials } }
  (mm, i)

/-- The request as it stands before the body is decoded: lines 28 to 38
of `main.go`. -/
def correlate {σ : Type} (env : Env σ) (r : Request) : M σ IAMMap := do
  let mm : IAMMap := {}
  let mm := { mm with RequestID := Header.Get r.Header "x-request-id" }
  let mm ← if mm.RequestID = "" then do
      let id ← newRequestID env
      pure { mm with RequestID := id }
    else pure mm
  let mm := { mm with Source := { mm.Source with RequestID := mm.RequestID } }
  let mm := { mm with Target := { mm.Target with RequestID := mm.RequestID } }
  pure mm

/-- handleIdentityRequest handles the identity request. `IdMaps` is the
value of `config.IdMaps` read at line 59. -/
def handleIdentityRequest {σ : Type} (env : Env σ) (r : Request) (IdMaps : List IAMMap) :
    M σ ResponseWriter := do
  let w : ResponseWriter := {}
  let mm ← correlate env r
  let (mm, jerr) := jsonDecodeIAMMap r.Body mm
  match jerr with
  | some e =>
    let w := { w with Header := Header.Add w.Header "x-request-id" mm.RequestID }
    pure (httpError w e StatusBadRequest)
  | none =>
    let valid ← Valid env mm.Source
    if !valid then
      let w := { w with Header := Header.Add w.Header "x-request-id" mm.RequestID }
      pure (w.WriteHeader StatusUnauthorized)
    else
      M.emit (.FindIDinMap mm IdMaps)
      match FindIDinMap mm IdMaps with
      | .error _ =>
        let w := { w with Header := Header.Add w.Header "x-request-id" mm.RequestID }
        pure (w.WriteHeader StatusNotFound)
      | .ok i =>
        let (mm, i) := readdRequest mm i
        let ((c, cerr), mm) ← GetCredentials env mm
        match cerr with
        | some _ =>
          let w := { w with Header := Header.Add w.Header "x-request-id" mm.RequestID }
          pure (w.WriteHeader StatusUnauthorized)
        | none =>
          let i := { i with Target := { i.Target with Credentials := c } }
          match env.jsonMarshal i.Target.Credentials with
          | .error jerr =>
            let w := { w with Header := Header.Add w.Header "x-request-id" mm.RequestID }
            pure (httpError w jerr StatusInternalServerError)
          | .ok jd =>
            let w := { w with Header := Header.Add w.Header "x-request-id" mm.RequestID }
            pure (w.Write jd)

/-! ## Stages of a request -/

/-- The request map after line 38 of `main.go`. -/
def correlated {σ : Type} (env : Env σ) (r : Request) (s : St σ) : IAMMap :=
  match (correlate env r s).res with
  | .ret mm => mm
  | .panicked _ => {}

/-- The request map and the error after line 44 of `main.go`. -/
def decoded {σ : Type} (env : Env σ) (r : Request) (s : St σ) : IAMMap × Option Error :=
  jsonDecodeIAMMap r.Body (correlated env r s)

/-- The call `mm.Source.Valid()` at line 52 of `main.go`. -/
def verified {σ : Type} (env : Env σ) (r : Request) (s : St σ) : Out σ Bool :=
  Valid env (decoded env r s).1.Source (correlate env r s).st

/-- The call `mm.GetCredentials(vaultclient.Client)` at line 72 of
`main.go`, when the lookup returned `i`. -/
def minted {σ : Type} (env : Env σ) (r : Request) (s : St σ) (i : IAMMap) :
    Out σ ((Credentials × Option Error) × IAMMap) :=
  GetCredentials env (readdRequest (decoded env r s).1 i).1 (verified env r s).st

/-- The outcome of lines 73 to 89 of `main.go`, given how the call at line
72 ended. -/
def respond {σ : Type} (env : Env σ) :
    Res ((Credentials × Option Error) × IAMMap) → Res ResponseWriter
  | .panicked msg => .panicked msg
  | .ret ((_, some _), im) =>
    .ret (ResponseWriter.WriteHeader
      { Header := Header.Add [] "x-request-id" im.RequestID } StatusUnauthorized)
  | .ret ((c, none), im) =>
    match env.jsonMarshal c with
    | .error jerr =>
      .ret (httpError { Header := Header.Add [] "x-request-id" im.RequestID } jerr
        StatusInternalServerError)
    | .ok jd =>
      .ret (ResponseWriter.Write { Header := Header.Add [] "x-request-id" im.RequestID } jd)

/-! ## Reading events -/

/-- Calls that leave the process: SDK, HTTP and Vault calls. -/
def Event.isExternal : Event → Bool
  | .newRequestID => true
  | .awsNewSession _ => true
  | .stsGetCallerIdentity _ => true
  | .awsCredentialsGet => true
  | .httpDo _ => true
  | .vaultRead _ => true
  | .vaultWrite _ => true
  | _ => false

/-- Entry into one of the three provider verifiers. -/
def Event.isVerifier : Event → Bool
  | .ValidAWS _ => true
  | .ValidGCP _ => true
  | .ValidK8S _ => true
  | _ => false

/-- The policy snapshot lookup. -/
def Event.isLookup : Event → Bool
  | .FindIDinMap _ _ => true
  | _ => false

/-- Entry into the minter. -/
def Event.isMint : Event → Bool
  | .GetCredentials _ => true
  | _ => false

/-- A call that only ever leaves external events. -/
def M.OnlyExternal {σ α : Type} (m : M σ α) : Prop :=
  ∀ s, ∀ e ∈ (m s).events, e.isExternal = true

/-- A call that never panics. -/
def M.Returns {σ α : Type} (m : M σ α) : Prop :=
  ∀ s, ∃ a, (m s).res = .ret a

/-- Apply a function to a returned value. -/
def Res.map {α β : Type} (f : α → β) : Res α → Res β
  | .ret a => .ret (f a)
  | .panicked msg => .panicked msg

/-! ## A concrete world for examples

A small world in which Alice holds an AWS access key, a GCP service
account key and a Kubernetes service-account token. The state of the
world counts the remote calls made. -/

/-- The string stored under a key of a bag; a missing key gives the empty
string and a value of another type is an error. -/
def bagString (c : Credentials) (key : String) : Except Error String :=
  match c.bind (fun m => m.lookup key) with
  | none => .ok ""
  | some (.string v) => .ok v
  | some _ => .error "expected type string"

/-- Whether a value is the float NaN, which `json.Marshal` rejects. -/
def Value.isNaN : Value → Bool
  | .number "NaN" => true
  | _ => false

/-- A flat rendering of the string members of a bag. -/
def renderBag (m : Bag) : String :=
  String.join (m.map (fun kv =>
    match kv.2 with
    | .string v => kv.1 ++ "=" ++ v ++ ";"
    | _ => kv.1 ++ "=?;"))

def aliceArn : String := "arn:aws:iam::111:user/alice"
def readRoleArn : String := "arn:aws:iam::222:role/read"
def aliceEmail : String := "alice@proj.iam.gserviceaccount.com"
def aliceServiceAccount : String := "system:serviceaccount:apps:alice"

/-- The example world. -/
def demoEnv : Env Nat where
  getenv := fun _ => ""
  uuidNew := fun w => ("generated-token", w + 1)
  jsonMarshal := fun c =>
    match c with
    | none => .ok "null"
    | some m =>
      if m.any (fun kv => kv.2.isNaN) then .error "json: unsupported value: NaN"
      else .ok (renderBag m)
  decodeAWSCredentials := fun c =>
    match bagString c "AccessKeyId", bagString c "SecretAccessKey", bagString c "SessionToken" with
    | .ok a, .ok k, .ok t => .ok { AccessKeyId := a, SecretAccessKey := k, SessionToken := t }
    | _, _, _ => .error "cannot decode"
  encodeAWSCredentials := fun ac old =>
    (some (Bag.set (Bag.set (Bag.set (old.getD []) "AccessKeyId" (.string ac.AccessKeyId))
      "SecretAccessKey" (.string ac.SecretAccessKey)) "SessionToken" (.string ac.SessionToken)), none)
  awsNewSession := fun _ w => (.ok { handle := w }, w + 1)
  stsGetCallerIdentity := fun _ cfg w =>
    match cfg.Credentials with
    | some (.static a k _) =>
      if a = "AKIAALICE" ∧ k = "alice-secret" then (.ok aliceArn, w + 1)
      else (.error "InvalidClientTokenId", w + 1)
    | some (.assumeRole _ role _) =>
      if role = readRoleArn then (.ok "arn:aws:sts::222:assumed-role/read/stratus", w + 1)
      else (.error "AccessDenied", w + 1)
    | none => (.error "NoCredentialProviders", w + 1)
  awsCredentialsGet := fun provider w =>
    match provider with
    | .static a k t => (.ok { AccessKeyID := a, SecretAccessKey := k, SessionToken := t }, w)
    | .assumeRole _ _ name =>
      (.ok { AccessKeyID := "ASIATEMP", SecretAccessKey := "temp-secret", SessionToken := name }, w + 1)
  unmarshalGCPCredentials := fun jd =>
    if jd = "client_email=alice@proj.iam.gserviceaccount.com;private_key=KEY-1;" then
      .ok { ClientEmail := aliceEmail, ClientX509CertURL := "https://certs.example/alice",
            PrivateKey := "KEY-1", PrivateKeyID := "kid-1" }
    else if jd = "client_email=alice@proj.iam.gserviceaccount.com;private_key=KEY-2;" then
      .ok { ClientEmail := aliceEmail, ClientX509CertURL := "https://certs.example/alice",
            PrivateKey := "KEY-2", PrivateKeyID := "kid-1" }
    else .error "unexpected end of JSON input"
  httpNewRequest := fun _ _ => none
  httpDo := fun _ req w =>
    if req.URL = "https://certs.example/alice" then (.ok "alice-certs", w + 1)
    else if req.URL = "https://k8s.example" ++ tokenReviewPath then
      (if req.Body = "alice-jwt" then (.ok "review-alice", w + 1) else (.ok "review-denied", w + 1))
    else (.error "no such host", w + 1)
  decodeStringMap := fun body =>
    if body = "alice-certs" then .ok [("kid-1", "PEM-1")] else .error "invalid character"
  x509KeyPair := fun cert key =>
    if cert = "PEM-1" ∧ key = "KEY-1" then .ok { Leaf := "DER-1" }
    else .error "tls: private key does not match public key"
  parseCertificate := fun der =>
    if der = "DER-1" then .ok () else .error "x509: malformed certificate"
  decodeK8SCreds := fun c =>
    match bagString c "clusterName", bagString c "namespace", bagString c "sa", bagString c "jwt" with
    | .ok n, .ok ns, .ok sa, .ok j => .ok { ClusterName := n, Namespace := ns, SA := sa, JWT := j }
    | _, _, _, _ => .error "cannot decode"
  decodeK8STargetCreds := fun c =>
    match bagString c "clusterName", bagString c "jwt" with
    | .ok n, .ok j => .ok { ClusterName := n, JWT := j }
    | _, _ => .error "cannot decode"
  decodeK8SIdentity := fun c k =>
    match bagString c "clusterHost", bagString c "clusterCA", bagString c "validationToken" with
    | .ok h, .ok ca, .ok t => .ok { k with ClusterHost := h, ClusterCA := ca, ValidationToken := t }
    | _, _, _ => .error "cannot decode"
  base64Decode := fun x =>
    if x = "Q0E=" then .ok "CA" else if x = "dG9r" then .ok "tok" else .error "illegal base64 data"
  marshalTokenReview := fun tr => .ok tr.SpecToken
  decodeTokenReview := fun body trr =>
    if body = "review-alice" then
      ({ trr with StatusAuthenticated := true, StatusUserUsername := aliceServiceAccount }, none)
    else if body = "review-denied" then ({ trr with StatusAuthenticated := false }, none)
    else (trr, some "invalid character")
  vaultRead := fun client path w =>
    if client.Token = "" then (.error "permission denied", w + 1)
    else if path = "devops/data/stratus-dev/prod/validation" then
      (.ok (some { Data := some [("data", .object
        [("clusterHost", .string "https://k8s.example"), ("clusterCA", .string "Q0E="),
         ("validationToken", .string "dG9r")])] }), w + 1)
    else if path = "devops/data/stratus-dev/bob@proj.iam.gserviceaccount.com" then
      (.ok (some { Data := some [("data", .object [("client_email", .string "bob@proj.iam.gserviceaccount.com")])] }),
        w + 1)
    else (.ok none, w + 1)
  vaultWrite := fun _ _ _ w => (.ok (some { Auth := some { ClientToken := "s.fresh" } }), w + 1)

/-- A process state whose vault client holds a token. -/
def demoState : St Nat := { world := 0, vc := { Token := "s.boot", Client := { Token := "s.boot" } } }

/-- Alice as an AWS source. -/
def aliceAWS : Identity :=
  { ID := aliceArn, Provider := "aws", Region := "us-east-1",
    Credentials := some [("AccessKeyId", .string "AKIAALICE"), ("SecretAccessKey", .string "alice-secret")] }

/-- Alice as a GCP source. -/
def aliceGCP : Identity :=
  { ID := aliceEmail, Provider := "gcp",
    Credentials := some [("client_email", .string aliceEmail), ("private_key", .string "KEY-1")] }

/-- Alice as a Kubernetes source. -/
def aliceK8S : Identity :=
  { ID := aliceServiceAccount, Provider := "k8s",
    Credentials := some [("clusterName", .string "prod"), ("jwt", .string "alice-jwt")] }

/-! ## Concrete requests and snapshots -/

/-- A request from AWS to AWS. -/
def crossProviderRequest : IAMMap :=
  { Source := { ID := aliceArn, Provider := "aws" }
    Target := { ID := readRoleArn, Provider := "aws" } }

/-- A snapshot whose only mapping has the ids of `crossProviderRequest`
under other provider tags. -/
def crossProviderSnapshot : List IAMMap :=
  [{ Source := { ID := aliceArn, Provider := "gcp" }
     Target := { ID := readRoleArn, Provider := "k8s" } }]

/-- The body of boundary scenario 1: Alice asks for the read role. -/
def happyBody : List (String × Value) :=
  [("source", .object
      [("id", .string aliceArn), ("provider", .string "aws"), ("region", .string "us-east-1"),
       ("credentials", .object
          [("AccessKeyId", .string "AKIAALICE"), ("SecretAccessKey", .string "alice-secret")])]),
   ("target", .object [("id", .string readRoleArn), ("provider", .string "aws")])]

/-- Boundary scenario 1, sent without a correlation header. -/
def happyRequest : Request := { Body := some (.object happyBody) }

/-- The snapshot of boundary scenario 1. -/
def happySnapshot : List IAMMap :=
  [{ Source := { ID := aliceArn, Provider := "aws" }
     Target := { ID := readRoleArn, Provider := "aws" } }]

/-- Boundary scenario 1, sent with a correlation header and with a
`requestId` member in the body. -/
def forgedRequest : Request :=
  { Header := [("X-Request-Id", "caller-token")]
    Body := some (.object (happyBody ++ [("requestId", .string "forged")])) }

/-- The mapping of boundary scenario 1 as loaded from a policy file whose
target credentials hold the YAML float `.nan`. -/
def nanMapping : IAMMap :=
  { Source := { ID := aliceArn, Provider := "aws" }
    Target := { ID := readRoleArn, Provider := "aws",
                Credentials := some [("weight", .number "NaN")] } }

/-- A snapshot holding `nanMapping` only. -/
def nanSnapshot : List IAMMap := [nanMapping]

/-- Boundary scenario 2: the keys of Alice under the ARN of Eve. -/
def eveRequest : Request :=
  { Body := some (.object
      [("source", .object
          [("id", .string "arn:aws:iam::111:user/eve"), ("provider", .string "aws"),
           ("region", .string "us-east-1"),
           ("credentials", .object
              [("AccessKeyId", .string "AKIAALICE"), ("SecretAccessKey", .string "alice-secret")])]),
       ("target", .object [("id", .string readRoleArn), ("provider", .string "aws")])]) }

/-- A body that is not JSON, sent with a correlation header. -/
def brokenRequest : Request :=
  { Header := [("X-Request-Id", "caller-token")], Body := none }

/-- A mapping with a provider tag that has no minter. -/
def azureMapping : IAMMap :=
  { Source := aliceAWS, Target := { ID := "app-1", Provider := "azr" } }

/-! ## internal/config

The package variable `IdMaps` is passed in and out explicitly. Reading
the file system observes the world without changing it; cloning, pulling
and sleeping change it. -/

/-- Observe the outside world. -/
def M.observe {σ α : Type} (f : σ → α) : M σ α := fun s => { res := .ret (f s.world), st := s }

/-- What `os.Stat` reports: no such file, another error, or the file
info (whether it is a directory). -/
inductive StatResult where
  | notExist
  | otherError (err : Error)
  | info (isDir : Bool)

/-- A `*git.Repository` handle. -/
structure Repository where
  handle : Nat := 0

/-- A `*git.Worktree` handle. -/
structure Worktree where
  handle : Nat := 0

/-- How `Worktree.Pull` ends: nil, `NoErrAlreadyUpToDate`, or another
error. -/
inductive PullResult where
  | pulled
  | alreadyUpToDate
  | failed (err : Error)

/-- One call that `filepath.Walk` makes to its function: the path, the
file info (`none` is nil, else whether it is a directory) and the error. -/
structure WalkEntry where
  path : String := ""
  info : Option Bool := none
  err : Option Error := none

/-- The libraries and the file system the policy loader calls. -/
structure ConfigEnv (σ : Type) where
  /-- **os.Getenv** -/
  getenv : String → String
  /-- **time.ParseDuration** -/
  parseDuration : String → Except Error Nat
  /-- **time.Sleep** -/
  sleep : Nat → σ → σ
  /-- **url.ParseRequestURI**: the error, if any -/
  parseRequestURI : String → Option Error
  /-- **os.Stat** -/
  stat : σ → String → StatResult
  /-- **git.PlainClone** of a URL into a directory with a reference name
  and a password -/
  plainClone : String → String → String → String → σ → Except Error Repository × σ
  /-- **git.PlainOpen** -/
  plainOpen : σ → String → Except Error Repository
  /-- **Repository.Worktree** -/
  worktree : σ → Repository → Except Error Worktree
  /-- **Worktree.Pull** with a reference name and a password -/
  pull : Worktree → String → String → σ → PullResult × σ
  /-- **Repository.Head**: the hash of the reference -/
  head : σ → Repository → Except Error String
  /-- **Repository.CommitObject**: the hash of the commit -/
  commitObject : σ → Repository → String → Except Error String
  /-- **filepath.Walk**: the calls it makes to a function that keeps
  returning nil -/
  walk : σ → String → List WalkEntry
  /-- **ioutil.ReadFile** -/
  readFile : σ → String → Except Error String
  /-- **yaml.Unmarshal** of a document into `[]identity.IAMMap` -/
  yamlUnmarshal : String → Except Error (List IAMMap)

/-- The call `gitClone(p, cd)`. -/
def gitClone {σ : Type} (cenv : ConfigEnv σ) (p : String) (cd : String) :
    M σ (Except Error Repository) := do
  let r ← M.world (cenv.plainClone p cd (cenv.getenv "REMOTE_GIT_REF") (cenv.getenv "GITHUB_TOKEN"))
  match r with
  | .error err => pure (.error err)
  | .ok repo => pure (.ok repo)

/-- The end of `pullRemoteConfig`, lines 96 to 107: the head of the
repository and its commit are looked up. -/
def headCommit {σ : Type} (cenv : ConfigEnv σ) (repo : Repository) : M σ (Option Error) := do
  let ref ← M.observe (fun w => cenv.head w repo)
  match ref with
  | .error err => pure (some err)
  | .ok hash =>
    let commit ← M.observe (fun w => cenv.commitObject w repo hash)
    match commit with
    | .error err => pure (some err)
    | .ok _ => pure none

/-- The call `pullRemoteConfig(p)`. -/
def pullRemoteConfig {σ : Type} (cenv : ConfigEnv σ) (p : String) : M σ (Option Error) := do
  let cd := cenv.getenv "GIT_CLONE_DIR"
  let st ← M.observe (fun w => cenv.stat w cd)
  match st with
  | .otherError _ => M.crash "nil pointer dereference: s"
  | .info true =>
    let r ← M.observe (fun w => cenv.plainOpen w cd)
    match r with
    | .error err => pure (some err)
    | .ok repo =>
      let w ← M.observe (fun w => cenv.worktree w repo)
      match w with
      | .error err => pure (some err)
      | .ok wt =>
        let pr ← M.world (cenv.pull wt (cenv.getenv "REMOTE_GIT_REF") (cenv.getenv "GITHUB_TOKEN"))
        match pr with
        | .failed err => pure (some err)
        | _ => headCommit cenv repo
  | _ =>
    let r ← gitClone cenv p cd
    match r with
    | .error err => pure (some err)
    | .ok repo => headCommit cenv repo

/-- The loop of `loadConfigPaths` over the files left, `sc` being the
records gathered so far. -/
def loadConfigPathsFrom {σ : Type} (cenv : ConfigEnv σ) :
    List String → List IAMMap → M σ (List IAMMap × Option Error)
  | [], sc => pure (sc, none)
  | cp :: rest, sc => do
    let fd ← M.observe (fun w => cenv.readFile w cp)
    match fd with
    | .error ferr => pure (sc, some ferr)
    | .ok fd =>
      match cenv.yamlUnmarshal fd with
      | .error err => pure (sc, some err)
      | .ok tsc => loadConfigPathsFrom cenv rest (sc ++ tsc)

/-- One file of `loadConfigPaths`, lines 124 to 134: it is read, then
parsed as a sequence of mapping records. -/
def readRecords {σ : Type} (cenv : ConfigEnv σ) (w : σ) (cp : String) :
    Except Error (List IAMMap) :=
  match cenv.readFile w cp with
  | .error ferr => .error ferr
  | .ok fd => cenv.yamlUnmarshal fd

/-- The call `loadConfigPaths(cps)`. -/
def loadConfigPaths {σ : Type} (cenv : ConfigEnv σ) (cps : List String) :
    M σ (List IAMMap × Option Error) :=
  loadConfigPathsFrom cenv cps []

/-- The function given to `filepath.Walk`, run over the calls the walk
makes: it stops at a nil info with an error, skips directories and
gathers the other paths. -/
def walkFiles : List WalkEntry → List String → List String × Option Error
  | [], files => (files, none)
  | e :: rest, files =>
    match e.info with
    | none =>
      match e.err with
      | some err => (files, some err)
      | none => walkFiles rest files
    | some true => walkFiles rest files
    | some false => walkFiles rest (files ++ [e.path])

/-- The call `getFilesInDirRecursive(dir)`. -/
def getFilesInDirRecursive {σ : Type} (cenv : ConfigEnv σ) (dir : String) :
    M σ (List String × Option Error) := do
  let entries ← M.observe (fun w => cenv.walk w dir)
  pure (walkFiles entries [])

/-- The call `strings.Split(s, ",")` on the characters of `s` left, `cur`
being the piece under way. -/
def splitComma : List Char → List Char → List String
  | [], cur => [String.mk cur]
  | c :: rest, cur =>
    if c = ',' then String.mk cur :: splitComma rest [] else splitComma rest (cur ++ [c])

/-- The first loop of `loadLocalSyncConfigs`, `ncps` being the files
gathered so far. -/
def gatherFiles {σ : Type} (cenv : ConfigEnv σ) :
    List String → List String → M σ (List String × Option Error)
  | [], ncps => pure (ncps, none)
  | cp :: rest, ncps => do
    let (tc, err) ← getFilesInDirRecursive cenv cp
    match err with
    | some e => pure (ncps, some e)
    | none => gatherFiles cenv rest (ncps ++ tc)

/-- The call `loadLocalSyncConfigs()`: loads SyncConfigs from the
configuration location. -/
def loadLocalSyncConfigs {σ : Type} (cenv : ConfigEnv σ) :
    M σ (List IAMMap × Option Error) := do
  let cps := splitComma (cenv.getenv "CONFIG_PATHS").data []
  if cps.length = 0 then
    pure ([], none)
  else
    let (ncps, err) ← gatherFiles cenv cps []
    match err with
    | some e => pure ([], some e)
    | none =>
      let (sc, err) ← loadConfigPaths cenv ncps
      match err with
      | some e => pure (sc, some e)
      | none => pure (sc, none)

/-- The call `loadSyncConfigs()`: loads the sync configs from the
determined configuration location. -/
def loadSyncConfigs {σ : Type} (cenv : ConfigEnv σ) : M σ (List IAMMap × Option Error) := do
  let perr ←
    if (cenv.parseRequestURI (cenv.getenv "REMOTE_CONFIG_REPO")).isNone then
      pullRemoteConfig cenv (cenv.getenv "REMOTE_CONFIG_REPO")
    else pure none
  match perr with
  | some err => pure ([], some err)
  | none =>
    if cenv.getenv "CONFIG_PATHS" ≠ "" then do
      let (sc, err) ← loadLocalSyncConfigs cenv
      match err with
      | some e => pure (sc, some e)
      | none => pure (sc, none)
    else
      pure ([], none)

/-- Where `RefreshSyncConfigs` stands: the process has exited through
`l.Fatal`, or the loop is still running; with the value of `IdMaps`. -/
inductive Refresh where
  | exited (IdMaps : List IAMMap) (err : Error)
  | running (IdMaps : List IAMMap)

/-- The published snapshot at that point. -/
def Refresh.IdMaps : Refresh → List IAMMap
  | .exited m _ => m
  | .running m => m

/-- The loop of `RefreshSyncConfigs`, followed for `fuel` rounds from
the value `IdMaps` of the snapshot. -/
def refreshLoop {σ : Type} (cenv : ConfigEnv σ) (pt : Nat) :
    Nat → List IAMMap → M σ Refresh
  | 0, IdMaps => pure (.running IdMaps)
  | fuel + 1, IdMaps => do
    let (sc, err) ← loadSyncConfigs cenv
    match err with
    | some e => pure (.exited IdMaps e)
    | none =>
      let IdMaps := sc
      M.world (fun w => ((), cenv.sleep pt w))
      refreshLoop cenv pt fuel IdMaps

/-- RefreshSyncConfigs refreshes the SyncConfigs from the configured
location; the loop never ends, so it is followed for `fuel` rounds. -/
def RefreshSyncConfigs {σ : Type} (cenv : ConfigEnv σ) (fuel : Nat) (IdMaps : List IAMMap) :
    M σ Refresh := do
  match cenv.parseDuration (cenv.getenv "CONFIG_REFRESH_INTERVAL") with
  | .error perr => pure (.exited IdMaps perr)
  | .ok pt => refreshLoop cenv pt fuel IdMaps

/-! ## Reading events of the secret store and of the pipeline -/

/-- A read issued to the secret store. -/
def Event.isVaultRead : Event → Bool
  | .vaultRead _ => true
  | _ => false

/-- A login issued to the secret store. -/
def Event.isVaultWrite : Event → Bool
  | .vaultWrite _ => true
  | _ => false

/-- The `RequestID` of the source identity a call of `Valid` is made on. -/
def Event.verifiedRequestID : Event → Option String
  | .Valid id => some id.RequestID
  | _ => none

/-- The `RequestID` of the target identity a call of `GetCredentials` is
made on. -/
def Event.mintedRequestID : Event → Option String
  | .GetCredentials im => some im.Target.RequestID
  | _ => none

/-- The minter entered by an event, if it enters one. -/
def Event.minterName : Event → Option String
  | .GetGCPSAFromVault _ => some "GetGCPSAFromVault"
  | .CreateAWSSession _ => some "CreateAWSSession"
  | .GetK8SSSAFromVault _ => some "GetK8SSSAFromVault"
  | _ => none

/-! ## Further concrete worlds, requests and snapshots -/

/-- A process state whose vault client holds no token. -/
def loggedOutState : St Nat := { world := 0 }

/-- The example world with a secret store that answers every read with a
document whose `data` entry is an empty map. -/
def emptyDataEnv : Env Nat :=
  { demoEnv with
    vaultRead := fun _ _ w => (.ok (some { Data := some [("data", .object [])] }), w + 1) }

/-- The example world with a secret store that answers every read with a
document that has metadata and no `data` entry. -/
def noDataEnv : Env Nat :=
  { demoEnv with
    vaultRead := fun _ _ w =>
      (.ok (some { Data := some [("metadata", .object [("deletion_time", .string "2021")])] }),
        w + 1) }

/-- A mapping to the `apps` service account of the cluster `prod`. -/
def prodMapping : IAMMap :=
  { Source := { ID := aliceArn, Provider := "aws" }
    Target := { ID := "apps", Provider := "k8s",
                Credentials := some [("clusterName", .string "prod")] } }

/-- A mapping with the ids of `prodMapping` to the cluster `staging`. -/
def stagingMapping : IAMMap :=
  { Source := { ID := aliceArn, Provider := "aws" }
    Target := { ID := "apps", Provider := "k8s",
                Credentials := some [("clusterName", .string "staging")] } }

/-- A request of Alice for the `apps` service account. -/
def appsRequest : IAMMap :=
  { Source := aliceAWS, Target := { ID := "apps", Provider := "k8s" } }

/-- Boundary scenario 1, sent with a correlation header and with
`request_id` members in the source and the target of the body. -/
def forgedIdsRequest : Request :=
  { Header := [("X-Request-Id", "caller-token")]
    Body := some (.object
      [("source", .object
          [("id", .string aliceArn), ("provider", .string "aws"), ("region", .string "us-east-1"),
           ("request_id", .string "forged-source"),
           ("credentials", .object
              [("AccessKeyId", .string "AKIAALICE"), ("SecretAccessKey", .string "alice-secret")])]),
       ("target", .object
          [("id", .string readRoleArn), ("provider", .string "aws"),
           ("request_id", .string "forged-target")])]) }

/-- Boundary scenario 1 with the target tagged `gcp` and a region in the
body. -/
def gcpTaggedRequest : Request :=
  { Body := some (.object
      [("source", .object
          [("id", .string aliceArn), ("provider", .string "aws"), ("region", .string "us-east-1"),
           ("credentials", .object
              [("AccessKeyId", .string "AKIAALICE"), ("SecretAccessKey", .string "alice-secret")])]),
       ("target", .object
          [("id", .string readRoleArn), ("provider", .string "gcp"),
           ("region", .string "eu-west-1")])]) }

/-- A policy record read from the file `a.yaml`. -/
def recordA : IAMMap :=
  { Source := { ID := aliceArn, Provider := "aws" }
    Target := { ID := readRoleArn, Provider := "aws" } }

/-- A policy record read from the file `b.yaml`. -/
def recordB : IAMMap :=
  { Source := { ID := aliceEmail, Provider := "gcp" }
    Target := { ID := "apps", Provider := "k8s" } }

/-- A world of the loader with two policy files that parse, one that does
not, and no remote repository. -/
def demoConfigEnv : ConfigEnv Nat where
  getenv := fun k =>
    if k = "CONFIG_PATHS" then "policies" else if k = "CONFIG_REFRESH_INTERVAL" then "30s" else ""
  parseDuration := fun d => if d = "30s" then .ok 30 else .error "time: invalid duration"
  sleep := fun n w => w + n
  parseRequestURI := fun u => if u = "" then some "empty url" else none
  stat := fun _ _ => .notExist
  plainClone := fun _ _ _ _ w => (.error "repository not found", w + 1)
  plainOpen := fun _ _ => .error "repository does not exist"
  worktree := fun _ _ => .error "worktree not available"
  pull := fun _ _ _ w => (.failed "no remote", w + 1)
  head := fun _ _ => .error "reference not found"
  commitObject := fun _ _ _ => .error "object not found"
  walk := fun w dir =>
    if dir = "policies" then
      (if w < 30 then
        [{ path := "policies", info := some true }, { path := "policies/a.yaml", info := some false },
         { path := "policies/b.yaml", info := some false }]
      else
        [{ path := "policies", info := some true }, { path := "policies/a.yaml", info := some false },
         { path := "policies/bad.yaml", info := some false }])
    else [{ path := dir, info := none, err := some "no such file or directory" }]
  readFile := fun _ path =>
    if path = "policies/a.yaml" then .ok "A"
    else if path = "policies/b.yaml" then .ok "B"
    else if path = "policies/bad.yaml" then .ok "BAD"
    else .error "no such file or directory"
  yamlUnmarshal := fun fd =>
    if fd = "A" then .ok [recordA]
    else if fd = "B" then .ok [recordB]
    else .error "yaml: unmarshal errors"

/-! ## Lemmas on the effect layer -/

section EffectLemmas

variable {σ α β : Type}

@[simp] theorem M.pure_apply (a : α) (s : St σ) :
    (pure a : M σ α) s = { res := .ret a, st := s, events := [] } := rfl

@[simp] theorem M.bind_apply (m : M σ α) (f : α → M σ β) (s : St σ) :
    (m >>= f) s =
      match (m s).res with
      | .ret a =>
        { res := (f a (m s).st).res, st := (f a (m s).st).st,
          events := (m s).events ++ (f a (m s).st).events }
      | .panicked e => { res := .panicked e, st := (m s).st, events := (m s).events } := rfl

@[simp] theorem M.emit_apply (e : Event) (s : St σ) :
    (M.emit e : M σ Unit) s = { res := .ret (), st := s, events := [e] } := rfl

@[simp] theorem M.crash_apply (msg : String) (s : St σ) :
    (M.crash msg : M σ α) s = { res := .panicked msg, st := s, events := [] } := rfl

@[simp] theorem M.world_apply (f : σ → α × σ) (s : St σ) :
    (M.world f : M σ α) s =
      { res := .ret (f s.world).1, st := { s with world := (f s.world).2 }, events := [] } := rfl

@[simp] theorem M.getVC_apply (s : St σ) :
    (M.getVC : M σ VaultClient) s = { res := .ret s.vc, st := s, events := [] } := rfl

@[simp] theorem M.setVC_apply (vc : VaultClient) (s : St σ) :
    (M.setVC vc : M σ Unit) s = { res := .ret (), st := { s with vc := vc }, events := [] } := rfl

theorem M.events_emit_bind (e : Event) (f : Unit → M σ α) (s : St σ) :
    ((M.emit e >>= f) s).events = e :: (f () s).events := rfl

theorem M.res_emit_bind (e : Event) (f : Unit → M σ α) (s : St σ) :
    ((M.emit e >>= f) s).res = (f () s).res := rfl

theorem M.st_emit_bind (e : Event) (f : Unit → M σ α) (s : St σ) :
    ((M.emit e >>= f) s).st = (f () s).st := rfl

theorem Event.not_verifier_of_external (e : Event) (h : e.isExternal = true) :
    e.isVerifier = false := by
  cases e <;> simp_all [Event.isExternal, Event.isVerifier]

theorem Event.not_lookup_of_external (e : Event) (h : e.isExternal = true) :
    e.isLookup = false := by
  cases e <;> simp_all [Event.isExternal, Event.isLookup]

theorem Event.not_mint_of_external (e : Event) (h : e.isExternal = true) :
    e.isMint = false := by
  cases e <;> simp_all [Event.isExternal, Event.isMint]

theorem M.onlyExternal_pure (a : α) : (pure a : M σ α).OnlyExternal := by
  intro s e he
  simp at he

theorem M.onlyExternal_crash (msg : String) : (M.crash msg : M σ α).OnlyExternal := by
  intro s e he
  simp at he

theorem M.onlyExternal_world (f : σ → α × σ) : (M.world f : M σ α).OnlyExternal := by
  intro s e he
  simp at he

theorem M.onlyExternal_getVC : (M.getVC : M σ VaultClient).OnlyExternal := by
  intro s e he
  simp at he

theorem M.onlyExternal_setVC (vc : VaultClient) : (M.setVC vc : M σ Unit).OnlyExternal := by
  intro s e he
  simp at he

theorem M.onlyExternal_emit (e : Event) (h : e.isExternal = true) :
    (M.emit e : M σ Unit).OnlyExternal := by
  intro s e2 he
  simp at he
  subst he
  exact h

theorem M.onlyExternal_bind {m : M σ α} {f : α → M σ β} (hm : m.OnlyExternal)
    (hf : ∀ a, (f a).OnlyExternal) : (m >>= f).OnlyExternal := by
  intro s e he
  rw [M.bind_apply] at he
  cases hr : (m s).res with
  | ret a =>
    rw [hr] at he
    simp only [List.mem_append] at he
    rcases he with he | he
    · exact hm s e he
    · exact hf a _ e he
  | panicked msg =>
    rw [hr] at he
    exact hm s e he

theorem M.returns_pure (a : α) : (pure a : M σ α).Returns := fun _ => ⟨a, rfl⟩

theorem M.returns_world (f : σ → α × σ) : (M.world f : M σ α).Returns := fun _ => ⟨_, rfl⟩

theorem M.returns_getVC : (M.getVC : M σ VaultClient).Returns := fun _ => ⟨_, rfl⟩

theorem M.returns_setVC (vc : VaultClient) : (M.setVC vc : M σ Unit).Returns := fun _ => ⟨_, rfl⟩

theorem M.returns_emit (e : Event) : (M.emit e : M σ Unit).Returns := fun _ => ⟨_, rfl⟩

theorem M.returns_bind {m : M σ α} {f : α → M σ β} (hm : m.Returns)
    (hf : ∀ a, (f a).Returns) : (m >>= f).Returns := by
  intro s
  obtain ⟨a, ha⟩ := hm s
  obtain ⟨b, hb⟩ := hf a (m s).st
  refine ⟨b, ?_⟩
  rw [M.bind_apply, ha]
  exact hb

end EffectLemmas

/-! ## Lemmas on the vault client -/

section VaultLemmas

variable {σ : Type} (env : Env σ)

theorem Login_onlyExternal : (Login env).OnlyExternal := by
  unfold Login
  refine M.onlyExternal_bind M.onlyExternal_getVC (fun vc => ?_)
  refine M.onlyExternal_bind (M.onlyExternal_emit _ rfl) (fun _ => ?_)
  refine M.onlyExternal_bind (M.onlyExternal_world _) (fun r => ?_)
  split
  · exact M.onlyExternal_pure _
  · exact M.onlyExternal_crash _
  · split
    · exact M.onlyExternal_crash _
    · exact M.onlyExternal_bind (M.onlyExternal_setVC _) (fun _ => M.onlyExternal_pure _)

theorem NewToken_onlyExternal : (NewToken env).OnlyExternal := by
  unfold NewToken
  repeat' first
    | exact M.onlyExternal_pure _
    | exact M.onlyExternal_crash _
    | exact M.onlyExternal_world _
    | exact M.onlyExternal_getVC
    | exact M.onlyExternal_setVC _
    | exact M.onlyExternal_emit _ rfl
    | exact Login_onlyExternal env
    | refine M.onlyExternal_bind ?_ (fun _ => ?_)
    | dsimp only
    | split

theorem GetKVSecret_onlyExternal (p : String) : (GetKVSecret env p).OnlyExternal := by
  unfold GetKVSecret
  repeat' first
    | exact M.onlyExternal_pure _
    | exact M.onlyExternal_crash _
    | exact M.onlyExternal_world _
    | exact M.onlyExternal_getVC
    | exact M.onlyExternal_setVC _
    | exact M.onlyExternal_emit _ rfl
    | refine M.onlyExternal_bind ?_ (fun _ => ?_)
    | dsimp only
    | split

theorem GetKVSecretRetry_onlyExternal (p : String) : (GetKVSecretRetry env p).OnlyExternal := by
  unfold GetKVSecretRetry
  repeat' first
    | exact M.onlyExternal_pure _
    | exact M.onlyExternal_crash _
    | exact M.onlyExternal_world _
    | exact M.onlyExternal_getVC
    | exact M.onlyExternal_setVC _
    | exact M.onlyExternal_emit _ rfl
    | exact NewToken_onlyExternal env
    | exact GetKVSecret_onlyExternal env _
    | refine M.onlyExternal_bind ?_ (fun _ => ?_)
    | dsimp only
    | split

end VaultLemmas

/-! ## Lemmas on the verifiers and minters -/

section ProviderLemmas

variable {σ : Type} (env : Env σ)

theorem CreateSession_onlyExternal (region role : String) (creds : Option AwsCredentialsProvider) (id : String) : (CreateSession env region role creds id).OnlyExternal := by
  unfold CreateSession
  repeat' first
    | exact M.onlyExternal_pure _
    | exact M.onlyExternal_crash _
    | exact M.onlyExternal_world _
    | exact M.onlyExternal_getVC
    | exact M.onlyExternal_setVC _
    | exact M.onlyExternal_emit _ rfl
    | refine M.onlyExternal_bind ?_ (fun _ => ?_)
    | dsimp only
    | split

theorem stsGetCallerIdentity_onlyExternal (region role : String) (creds : Option AwsCredentialsProvider) (id : String) : (stsGetCallerIdentity env region role creds id).OnlyExternal := by
  unfold stsGetCallerIdentity
  repeat' first
    | exact M.onlyExternal_pure _
    | exact M.onlyExternal_crash _
    | exact M.onlyExternal_world _
    | exact M.onlyExternal_getVC
    | exact M.onlyExternal_setVC _
    | exact M.onlyExternal_emit _ rfl
    | exact CreateSession_onlyExternal env _ _ _ _
    | refine M.onlyExternal_bind ?_ (fun _ => ?_)
    | dsimp only
    | split

theorem getClientCert_onlyExternal (c : GCPCredentials) : (c.getClientCert env).OnlyExternal := by
  unfold GCPCredentials.getClientCert
  repeat' first
    | exact M.onlyExternal_pure _
    | exact M.onlyExternal_crash _
    | exact M.onlyExternal_world _
    | exact M.onlyExternal_getVC
    | exact M.onlyExternal_setVC _
    | exact M.onlyExternal_emit _ rfl
    | refine M.onlyExternal_bind ?_ (fun _ => ?_)
    | dsimp only
    | split

theorem GCPValidate_onlyExternal (c : GCPCredentials) : (c.Validate env).OnlyExternal := by
  unfold GCPCredentials.Validate
  repeat' first
    | exact M.onlyExternal_pure _
    | exact M.onlyExternal_crash _
    | exact M.onlyExternal_world _
    | exact M.onlyExternal_getVC
    | exact M.onlyExternal_setVC _
    | exact M.onlyExternal_emit _ rfl
    | exact getClientCert_onlyExternal env _
    | refine M.onlyExternal_bind ?_ (fun _ => ?_)
    | dsimp only
    | split

theorem GetValidation_onlyExternal (k : K8SIdentity) (cluster : String) : (k.GetValidation env cluster).OnlyExternal := by
  unfold K8SIdentity.GetValidation
  repeat' first
    | exact M.onlyExternal_pure _
    | exact M.onlyExternal_crash _
    | exact M.onlyExternal_world _
    | exact M.onlyExternal_getVC
    | exact M.onlyExternal_setVC _
    | exact M.onlyExternal_emit _ rfl
    | exact GetKVSecretRetry_onlyExternal env _
    | refine M.onlyExternal_bind ?_ (fun _ => ?_)
    | dsimp only
    | split

theorem K8SValidate_onlyExternal (k : K8SIdentity) : (k.Validate env).OnlyExternal := by
  unfold K8SIdentity.Validate
  repeat' first
    | exact M.onlyExternal_pure _
    | exact M.onlyExternal_crash _
    | exact M.onlyExternal_world _
    | exact M.onlyExternal_getVC
    | exact M.onlyExternal_setVC _
    | exact M.onlyExternal_emit _ rfl
    | exact GetValidation_onlyExternal env _ _
    | refine M.onlyExternal_bind ?_ (fun _ => ?_)
    | dsimp only
    | split

theorem ValidAWS_events (id : Identity) (s : St σ) :
    ∃ rest, (ValidAWS env id s).events = .ValidAWS id :: rest ∧ ∀ e ∈ rest, e.isExternal = true := by
  unfold ValidAWS
  rw [M.events_emit_bind]
  refine ⟨_, rfl, fun e he => (?_ : M.OnlyExternal _) s e he⟩
  repeat' first
    | exact M.onlyExternal_pure _
    | exact M.onlyExternal_crash _
    | exact M.onlyExternal_world _
    | exact M.onlyExternal_getVC
    | exact M.onlyExternal_setVC _
    | exact M.onlyExternal_emit _ rfl
    | exact stsGetCallerIdentity_onlyExternal env _ _ _ _
    | refine M.onlyExternal_bind ?_ (fun _ => ?_)
    | dsimp only
    | split

theorem ValidGCP_events (id : Identity) (s : St σ) :
    ∃ rest, (ValidGCP env id s).events = .ValidGCP id :: rest ∧ ∀ e ∈ rest, e.isExternal = true := by
  unfold ValidGCP
  rw [M.events_emit_bind]
  refine ⟨_, rfl, fun e he => (?_ : M.OnlyExternal _) s e he⟩
  repeat' first
    | exact M.onlyExternal_pure _
    | exact M.onlyExternal_crash _
    | exact M.onlyExternal_world _
    | exact M.onlyExternal_getVC
    | exact M.onlyExternal_setVC _
    | exact M.onlyExternal_emit _ rfl
    | exact GCPValidate_onlyExternal env _
    | refine M.onlyExternal_bind ?_ (fun _ => ?_)
    | dsimp only
    | split

theorem ValidK8S_events (id : Identity) (s : St σ) :
    ∃ rest, (ValidK8S env id s).events = .ValidK8S id :: rest ∧ ∀ e ∈ rest, e.isExternal = true := by
  unfold ValidK8S
  rw [M.events_emit_bind]
  refine ⟨_, rfl, fun e he => (?_ : M.OnlyExternal _) s e he⟩
  repeat' first
    | exact M.onlyExternal_pure _
    | exact M.onlyExternal_crash _
    | exact M.onlyExternal_world _
    | exact M.onlyExternal_getVC
    | exact M.onlyExternal_setVC _
    | exact M.onlyExternal_emit _ rfl
    | exact K8SValidate_onlyExternal env _
    | refine M.onlyExternal_bind ?_ (fun _ => ?_)
    | dsimp only
    | split

theorem GetGCPSAFromVault_events (id : Identity) (s : St σ) :
    ∃ rest, (GetGCPSAFromVault env id s).events = .GetGCPSAFromVault id :: rest ∧ ∀ e ∈ rest, e.isExternal = true := by
  unfold GetGCPSAFromVault
  rw [M.events_emit_bind]
  refine ⟨_, rfl, fun e he => (?_ : M.OnlyExternal _) s e he⟩
  repeat' first
    | exact M.onlyExternal_pure _
    | exact M.onlyExternal_crash _
    | exact M.onlyExternal_world _
    | exact M.onlyExternal_getVC
    | exact M.onlyExternal_setVC _
    | exact M.onlyExternal_emit _ rfl
    | exact GetKVSecretRetry_onlyExternal env _
    | refine M.onlyExternal_bind ?_ (fun _ => ?_)
    | dsimp only
    | split

theorem CreateAWSSession_events (id : Identity) (s : St σ) :
    ∃ rest, (CreateAWSSession env id s).events = .CreateAWSSession id :: rest ∧ ∀ e ∈ rest, e.isExternal = true := by
  unfold CreateAWSSession
  rw [M.events_emit_bind]
  refine ⟨_, rfl, fun e he => (?_ : M.OnlyExternal _) s e he⟩
  repeat' first
    | exact M.onlyExternal_pure _
    | exact M.onlyExternal_crash _
    | exact M.onlyExternal_world _
    | exact M.onlyExternal_getVC
    | exact M.onlyExternal_setVC _
    | exact M.onlyExternal_emit _ rfl
    | exact CreateSession_onlyExternal env _ _ _ _
    | refine M.onlyExternal_bind ?_ (fun _ => ?_)
    | dsimp only
    | split

theorem GetK8SSSAFromVault_events (id : Identity) (s : St σ) :
    ∃ rest, (GetK8SSSAFromVault env id s).events = .GetK8SSSAFromVault id :: rest ∧ ∀ e ∈ rest, e.isExternal = true := by
  unfold GetK8SSSAFromVault
  rw [M.events_emit_bind]
  refine ⟨_, rfl, fun e he => (?_ : M.OnlyExternal _) s e he⟩
  repeat' first
    | exact M.onlyExternal_pure _
    | exact M.onlyExternal_crash _
    | exact M.onlyExternal_world _
    | exact M.onlyExternal_getVC
    | exact M.onlyExternal_setVC _
    | exact M.onlyExternal_emit _ rfl
    | exact GetKVSecretRetry_onlyExternal env _
    | refine M.onlyExternal_bind ?_ (fun _ => ?_)
    | dsimp only
    | split

theorem CreateSession_returns (region role : String) (creds : Option AwsCredentialsProvider) (id : String) : (CreateSession env region role creds id).Returns := by
  unfold CreateSession
  repeat' first
    | exact M.returns_pure _
    | exact M.returns_world _
    | exact M.returns_getVC
    | exact M.returns_setVC _
    | exact M.returns_emit _
    | refine M.returns_bind ?_ (fun _ => ?_)
    | dsimp only
    | split

theorem stsGetCallerIdentity_returns (region role : String) (creds : Option AwsCredentialsProvider) (id : String) : (stsGetCallerIdentity env region role creds id).Returns := by
  unfold stsGetCallerIdentity
  repeat' first
    | exact M.returns_pure _
    | exact M.returns_world _
    | exact M.returns_getVC
    | exact M.returns_setVC _
    | exact M.returns_emit _
    | exact CreateSession_returns env _ _ _ _
    | refine M.returns_bind ?_ (fun _ => ?_)
    | dsimp only
    | split

theorem ValidAWS_returns (id : Identity) : (ValidAWS env id).Returns := by
  unfold ValidAWS
  repeat' first
    | exact M.returns_pure _
    | exact M.returns_world _
    | exact M.returns_getVC
    | exact M.returns_setVC _
    | exact M.returns_emit _
    | exact stsGetCallerIdentity_returns env _ _ _ _
    | refine M.returns_bind ?_ (fun _ => ?_)
    | dsimp only
    | split

theorem getClientCert_returns (c : GCPCredentials) : (c.getClientCert env).Returns := by
  unfold GCPCredentials.getClientCert
  repeat' first
    | exact M.returns_pure _
    | exact M.returns_world _
    | exact M.returns_getVC
    | exact M.returns_setVC _
    | exact M.returns_emit _
    | refine M.returns_bind ?_ (fun _ => ?_)
    | dsimp only
    | split

theorem GCPValidate_returns (c : GCPCredentials) : (c.Validate env).Returns := by
  unfold GCPCredentials.Validate
  repeat' first
    | exact M.returns_pure _
    | exact M.returns_world _
    | exact M.returns_getVC
    | exact M.returns_setVC _
    | exact M.returns_emit _
    | exact getClientCert_returns env _
    | refine M.returns_bind ?_ (fun _ => ?_)
    | dsimp only
    | split

theorem ValidGCP_returns (id : Identity) : (ValidGCP env id).Returns := by
  unfold ValidGCP
  repeat' first
    | exact M.returns_pure _
    | exact M.returns_world _
    | exact M.returns_getVC
    | exact M.returns_setVC _
    | exact M.returns_emit _
    | exact GCPValidate_returns env _
    | refine M.returns_bind ?_ (fun _ => ?_)
    | dsimp only
    | split

theorem M.emit_bind_apply {α : Type} (e : Event) (f : Unit → M σ α) (s : St σ) :
    (M.emit e >>= f) s = { f () s with events := e :: (f () s).events } := rfl

/-- The events of `Valid`: its own entry, then at most one verifier entry,
then external calls. -/
theorem Valid_events (id : Identity) (s : St σ) :
    (Valid env id s).events = [.Valid id] ∨
    ∃ v rest, (Valid env id s).events = .Valid id :: v :: rest ∧ v.isVerifier = true ∧
      ∀ e ∈ rest, e.isExternal = true := by
  unfold Valid
  rw [M.events_emit_bind]
  split
  · exact Or.inl rfl
  · split
    · obtain ⟨rest, h, hr⟩ := ValidAWS_events env id s
      exact Or.inr ⟨.ValidAWS id, rest, by rw [h], rfl, hr⟩
    · split
      · obtain ⟨rest, h, hr⟩ := ValidGCP_events env id s
        exact Or.inr ⟨.ValidGCP id, rest, by rw [h], rfl, hr⟩
      · split
        · obtain ⟨rest, h, hr⟩ := ValidK8S_events env id s
          exact Or.inr ⟨.ValidK8S id, rest, by rw [h], rfl, hr⟩
        · exact Or.inl rfl

end ProviderLemmas


/-! ## C1: policy lookup -/

/-- C1, as stated, fails: `FindIDinMap` authorizes an aws-to-aws request
from a snapshot whose only mapping is tagged gcp-to-k8s, because only the
ids are compared. -/
theorem FindIDinMap_ignores_provider :
    (∃ i, FindIDinMap crossProviderRequest crossProviderSnapshot = .ok i) ∧
    ¬ ∃ m ∈ crossProviderSnapshot,
      (m.Source.Provider = crossProviderRequest.Source.Provider ∧
        m.Source.ID = crossProviderRequest.Source.ID) ∧
      (m.Target.Provider = crossProviderRequest.Target.Provider ∧
        m.Target.ID = crossProviderRequest.Target.ID) := by
  refine ⟨⟨_, rfl⟩, ?_⟩
  simp [crossProviderSnapshot, crossProviderRequest]

/-- C1, amended: `FindIDinMap` returns a mapping only if that mapping is in
the snapshot and has `source.id` and `target.id` equal to the request's
`source.id` and `target.id`; provider tags are not compared. -/
theorem FindIDinMap_sound (im : IAMMap) (iamMap : List IAMMap) (i : IAMMap)
    (h : FindIDinMap im iamMap = .ok i) :
    i ∈ iamMap ∧ i.Source.ID = im.Source.ID ∧ i.Target.ID = im.Target.ID := by
  induction iamMap with
  | nil => simp [FindIDinMap] at h
  | cons iam rest ih =>
    unfold FindIDinMap at h
    split at h
    · rename_i hm
      injection h with h
      subst h
      exact ⟨List.mem_cons_self _ _, hm.1.symm, hm.2.symm⟩
    · obtain ⟨h1, h2⟩ := ih h
      exact ⟨List.mem_cons_of_mem _ h1, h2⟩

/-- Witness for C1: the lookup on the cross-provider snapshot. -/
theorem FindIDinMap_sound_witness :
    FindIDinMap crossProviderRequest crossProviderSnapshot =
        .ok { Source := { ID := aliceArn, Provider := "gcp" }
              Target := { ID := readRoleArn, Provider := "k8s" } } ∧
    aliceArn = crossProviderRequest.Source.ID ∧ readRoleArn = crossProviderRequest.Target.ID :=
  ⟨rfl, (FindIDinMap_sound crossProviderRequest crossProviderSnapshot _ rfl).2⟩


/-! ## C6: choice of the verifier -/

/-- C6: `Valid` chooses by the provider tag alone. For `aws`, `gcp` and
`k8s` it is exactly `ValidAWS`, `ValidGCP` and `ValidK8S` on the same
identity and state; for every other tag, the empty one included, it
returns false, leaves the state alone and calls nothing; in all cases at
most one verifier is entered. -/
theorem Valid_selects_by_provider {σ : Type} (env : Env σ) (id : Identity) (s : St σ) :
    (id.Provider = "aws" →
      Valid env id s =
        { ValidAWS env id s with events := .Valid id :: (ValidAWS env id s).events }) ∧
    (id.Provider = "gcp" →
      Valid env id s =
        { ValidGCP env id s with events := .Valid id :: (ValidGCP env id s).events }) ∧
    (id.Provider = "k8s" →
      Valid env id s =
        { ValidK8S env id s with events := .Valid id :: (ValidK8S env id s).events }) ∧
    (id.Provider ≠ "aws" → id.Provider ≠ "gcp" → id.Provider ≠ "k8s" →
      Valid env id s = { res := .ret false, st := s, events := [.Valid id] }) ∧
    (Valid env id s).events.countP Event.isVerifier ≤ 1 := by
  refine ⟨?_, ?_, ?_, ?_, ?_⟩
  · intro h
    unfold Valid
    rw [M.emit_bind_apply]
    simp [h, ProviderAWS, ProviderGCP, ProviderK8S]
  · intro h
    unfold Valid
    rw [M.emit_bind_apply]
    simp [h, ProviderAWS, ProviderGCP, ProviderK8S]
  · intro h
    unfold Valid
    rw [M.emit_bind_apply]
    simp [h, ProviderAWS, ProviderGCP, ProviderK8S]
  · intro h1 h2 h3
    unfold Valid
    rw [M.emit_bind_apply]
    by_cases h0 : id.Provider = "" <;> simp [h0, h1, h2, h3, ProviderAWS, ProviderGCP, ProviderK8S]
  · rcases Valid_events env id s with h | ⟨v, rest, h, hv, hr⟩
    · rw [h]
      simp [List.countP_cons, Event.isVerifier]
    · rw [h]
      have h0 : rest.countP Event.isVerifier = 0 := by
        rw [List.countP_eq_zero]
        intro e he
        simp [Event.not_verifier_of_external e (hr e he)]
      have h1 : (Event.Valid id).isVerifier = false := rfl
      simp [List.countP_cons, h1, hv, h0]

/-- Witness for C6: on Alice as an AWS source `Valid` enters `ValidAWS`
only, and on an `azr` source it returns false with no call. -/
theorem Valid_selects_by_provider_witness :
    (Valid demoEnv aliceAWS demoState).res = .ret true ∧
    (Valid demoEnv aliceAWS demoState).events.countP Event.isVerifier = 1 ∧
    Valid demoEnv { aliceAWS with Provider := "azr" } demoState =
      { res := .ret false, st := demoState, events := [.Valid { aliceAWS with Provider := "azr" }] } :=
  ⟨by decide, by decide,
    (Valid_selects_by_provider demoEnv { aliceAWS with Provider := "azr" } demoState).2.2.2.1
      (by decide) (by decide) (by decide)⟩


/-! ## C7: the AWS verifier -/

/-- C7: `ValidAWS` returns true exactly when the provider is `aws`, the bag
decodes with a non-empty `AccessKeyId` and `SecretAccessKey`, a session
with those static credentials in `id.Region` is created, and
`GetCallerIdentity` on it succeeds with an ARN equal to `id.ID`; it never
panics, so in every other case it returns false. -/
theorem ValidAWS_iff {σ : Type} (env : Env σ) (id : Identity) (s : St σ) :
    ((ValidAWS env id s).res = .ret true ↔
      id.Provider = "aws" ∧
      ∃ ac, env.decodeAWSCredentials id.Credentials = .ok ac ∧
        ac.AccessKeyId ≠ "" ∧ ac.SecretAccessKey ≠ "" ∧
        ∃ sess,
          (env.awsNewSession
            { Region := id.Region
              Credentials := some (.static ac.AccessKeyId ac.SecretAccessKey ac.SessionToken) }
            s.world).1 = .ok sess ∧
          (env.stsGetCallerIdentity sess
            { Region := id.Region
              Credentials := some (.static ac.AccessKeyId ac.SecretAccessKey ac.SessionToken) }
            (env.awsNewSession
              { Region := id.Region
                Credentials := some (.static ac.AccessKeyId ac.SecretAccessKey ac.SessionToken) }
              s.world).2).1 = .ok id.ID) ∧
    ((ValidAWS env id s).res = .ret true ∨ (ValidAWS env id s).res = .ret false) := by
  refine ⟨?_, ?_⟩
  · unfold ValidAWS
    rw [M.res_emit_bind]
    by_cases hp : id.Provider = "aws"
    · cases hd : env.decodeAWSCredentials id.Credentials with
      | error e => simp [hp, hd]
      | ok ac =>
        by_cases hk : ac.AccessKeyId = "" ∨ ac.SecretAccessKey = ""
        · simp [hp, hd, hk]
          intro h1 h2
          rcases hk with hk | hk
          · exact absurd hk h1
          · exact absurd hk h2
        · have hk1 : ac.AccessKeyId ≠ "" := fun h => hk (Or.inl h)
          have hk2 : ac.SecretAccessKey ≠ "" := fun h => hk (Or.inr h)
          rcases hn : env.awsNewSession
              { Region := id.Region
                Credentials := some (.static ac.AccessKeyId ac.SecretAccessKey ac.SessionToken) }
              s.world with ⟨r, w⟩
          cases r with
          | error e => simp [hp, hd, hk, stsGetCallerIdentity, CreateSession, hn]
          | ok sess =>
            rcases hg : env.stsGetCallerIdentity sess
                { Region := id.Region
                  Credentials := some (.static ac.AccessKeyId ac.SecretAccessKey ac.SessionToken) }
                w with ⟨r2, w2⟩
            cases r2 with
            | error e => simp [hp, hd, hk, stsGetCallerIdentity, CreateSession, hn, hg]
            | ok arn =>
              by_cases ha : id.ID = arn
              · subst ha
                simp [hp, hd, hk1, hk2, stsGetCallerIdentity, CreateSession, hn, hg]
              · simp [hp, hd, hk1, hk2, stsGetCallerIdentity, CreateSession, hn, hg, ha]
                exact fun h => ha h.symm
    · simp [hp]
  · obtain ⟨b, hb⟩ := ValidAWS_returns env id s
    cases b
    · exact Or.inr hb
    · exact Or.inl hb

/-- Witness for C7: Alice, holding her access key, is accepted under her
own ARN. -/
theorem ValidAWS_iff_witness : (ValidAWS demoEnv aliceAWS demoState).res = .ret true :=
  (ValidAWS_iff demoEnv aliceAWS demoState).1.mpr
    ⟨rfl, { AccessKeyId := "AKIAALICE", SecretAccessKey := "alice-secret" }, rfl,
      by decide, by decide, { handle := 0 }, rfl, rfl⟩

/-! ## C10: choice of the minter -/

/-- C10: for a target provider other than `aws`, `gcp` and `k8s`,
`GetCredentials` returns no credentials and the error `provider not
supported`, leaves the state alone and makes no call; for `gcp`, `aws` and
`k8s` its result, state and calls are those of `GetGCPSAFromVault`,
`CreateAWSSession` and `GetK8SSSAFromVault` on the target. -/
theorem GetCredentials_dispatch {σ : Type} (env : Env σ) (im : IAMMap) (s : St σ) :
    (im.Target.Provider ≠ "aws" → im.Target.Provider ≠ "gcp" → im.Target.Provider ≠ "k8s" →
      GetCredentials env im s =
        { res := .ret ((none, some "provider not supported"), im), st := s,
          events := [.GetCredentials im] }) ∧
    (im.Target.Provider = "gcp" →
      GetCredentials env im s =
        { res := (GetGCPSAFromVault env im.Target s).res.map
            (fun r => (r.1, { im with Target := r.2 }))
          st := (GetGCPSAFromVault env im.Target s).st
          events := .GetCredentials im :: (GetGCPSAFromVault env im.Target s).events }) ∧
    (im.Target.Provider = "aws" →
      GetCredentials env im s =
        { res := (CreateAWSSession env im.Target s).res.map
            (fun r => (r.1, { im with Target := r.2 }))
          st := (CreateAWSSession env im.Target s).st
          events := .GetCredentials im :: (CreateAWSSession env im.Target s).events }) ∧
    (im.Target.Provider = "k8s" →
      GetCredentials env im s =
        { res := (GetK8SSSAFromVault env im.Target s).res.map
            (fun r => (r.1, { im with Target := r.2 }))
          st := (GetK8SSSAFromVault env im.Target s).st
          events := .GetCredentials im :: (GetK8SSSAFromVault env im.Target s).events }) := by
  refine ⟨?_, ?_, ?_, ?_⟩
  · intro h1 h2 h3
    unfold GetCredentials
    rw [M.emit_bind_apply]
    simp [h1, h2, h3, ProviderAWS, ProviderGCP, ProviderK8S]
  · intro h
    unfold GetCredentials
    rw [M.emit_bind_apply]
    simp only [h, ProviderGCP, if_true, M.bind_apply]
    cases hr : (GetGCPSAFromVault env im.Target s).res <;> simp [Res.map, hr]
  · intro h
    unfold GetCredentials
    rw [M.emit_bind_apply]
    simp only [h, ProviderGCP, ProviderAWS, if_true, M.bind_apply]
    cases hr : (CreateAWSSession env im.Target s).res <;> simp [Res.map, hr]
  · intro h
    unfold GetCredentials
    rw [M.emit_bind_apply]
    simp only [h, ProviderGCP, ProviderAWS, ProviderK8S, if_true, M.bind_apply]
    cases hr : (GetK8SSSAFromVault env im.Target s).res <;> simp [Res.map, hr]

/-- Witness for C10: a mapping whose target is tagged `azr` is refused
without any call. -/
theorem GetCredentials_dispatch_witness :
    GetCredentials demoEnv azureMapping demoState =
      { res := .ret ((none, some "provider not supported"), azureMapping), st := demoState,
        events := [.GetCredentials azureMapping] } :=
  (GetCredentials_dispatch demoEnv azureMapping demoState).1 (by decide) (by decide) (by decide)


/-! ## C9: the GCP verifier -/

/-- C9: `ValidGCP` returns true exactly when the provider is `gcp`, the bag
is not nil and decodes as a key document with non-empty `client_email` and
`client_x509_cert_url`, `client_email` equals `id.ID`, and `Validate`
reports no error; it never panics, so otherwise it returns false. When
`client_email` differs from `id.ID` it returns false without running
`Validate`. `Validate` reports no error exactly when the certificate is
fetched, the pair loads and the leaf parses. -/
theorem ValidGCP_iff {σ : Type} (env : Env σ) (id : Identity) (s : St σ) :
    ((ValidGCP env id s).res = .ret true ↔
      id.Provider = "gcp" ∧ id.Credentials ≠ none ∧
      ∃ jd c, env.jsonMarshal id.Credentials = .ok jd ∧
        env.unmarshalGCPCredentials jd = .ok c ∧
        c.ClientEmail ≠ "" ∧ c.ClientX509CertURL ≠ "" ∧ c.ClientEmail = id.ID ∧
        (c.Validate env s).res = .ret none) ∧
    ((ValidGCP env id s).res = .ret true ∨ (ValidGCP env id s).res = .ret false) ∧
    (∀ jd c, env.jsonMarshal id.Credentials = .ok jd →
      env.unmarshalGCPCredentials jd = .ok c → c.ClientEmail ≠ id.ID →
      ValidGCP env id s = { res := .ret false, st := s, events := [.ValidGCP id] }) ∧
    (∀ c : GCPCredentials, (c.Validate env s).res = .ret none ↔
      ∃ cc cert, (c.getClientCert env s).res = .ret (cc, none) ∧
        env.x509KeyPair cc c.PrivateKey = .ok cert ∧
        env.parseCertificate cert.Leaf = .ok ()) := by
  refine ⟨?_, ?_, ?_, ?_⟩
  · unfold ValidGCP
    rw [M.res_emit_bind]
    by_cases hp : id.Provider = "gcp"
    · cases hc : id.Credentials with
      | none => simp [hp]
      | some bag =>
        cases hm : env.jsonMarshal (some bag) with
        | error e => simp [hp, hm]
        | ok jd =>
          cases hu : env.unmarshalGCPCredentials jd with
          | error e => simp [hp, hm, hu]
          | ok c =>
            by_cases hk : c.ClientEmail = "" ∨ c.ClientX509CertURL = ""
            · simp [hp, hm, hu, hk]
              intro h1 h2
              rcases hk with hk | hk
              · exact absurd hk h1
              · exact absurd hk h2
            · have hk1 : c.ClientEmail ≠ "" := fun h => hk (Or.inl h)
              have hk2 : c.ClientX509CertURL ≠ "" := fun h => hk (Or.inr h)
              by_cases he : id.ID = c.ClientEmail
              · obtain ⟨r, hr⟩ := GCPValidate_returns env c s
                cases r with
                | none => simp [hp, hm, hu, hk1, hk2, he, hr]
                | some e => simp [hp, hm, hu, hk1, hk2, he, hr]
              · simp [hp, hm, hu, hk1, hk2, he]
                exact fun h => absurd h.symm he
    · simp [hp]
  · obtain ⟨b, hb⟩ := ValidGCP_returns env id s
    cases b
    · exact Or.inr hb
    · exact Or.inl hb
  · intro jd c hm hu hne
    unfold ValidGCP
    rw [M.emit_bind_apply]
    by_cases hp : id.Provider = "gcp"
    · cases hc : id.Credentials with
      | none => simp [hp]
      | some bag =>
        rw [hc] at hm
        by_cases hk : c.ClientEmail = "" ∨ c.ClientX509CertURL = ""
        · simp [hp, hm, hu, hk]
        · have hk1 : c.ClientEmail ≠ "" := fun h => hk (Or.inl h)
          have hk2 : c.ClientX509CertURL ≠ "" := fun h => hk (Or.inr h)
          have he : ¬ id.ID = c.ClientEmail := fun h => hne h.symm
          simp [hp, hm, hu, hk1, hk2, he]
    · simp [hp]
  · intro c
    unfold GCPCredentials.Validate
    obtain ⟨r, hr⟩ := getClientCert_returns env c s
    rcases r with ⟨cc, err⟩
    cases err with
    | some e => simp [hr]
    | none =>
      cases hx : env.x509KeyPair cc c.PrivateKey with
      | error e => simp [hr, hx]
      | ok cert =>
        cases hq : env.parseCertificate cert.Leaf with
        | error e => simp [hr, hx, hq]
        | ok u => simp [hr, hx, hq]

/-- Witness for C9: a key document naming Alice is refused under another
id before any certificate is fetched. -/
theorem ValidGCP_iff_witness :
    ValidGCP demoEnv { aliceGCP with ID := "mallory@proj.iam.gserviceaccount.com" } demoState =
      { res := .ret false, st := demoState,
        events := [.ValidGCP { aliceGCP with ID := "mallory@proj.iam.gserviceaccount.com" }] } :=
  (ValidGCP_iff demoEnv { aliceGCP with ID := "mallory@proj.iam.gserviceaccount.com" } demoState).2.2.1
    "client_email=alice@proj.iam.gserviceaccount.com;private_key=KEY-1;"
    { ClientEmail := aliceEmail, ClientX509CertURL := "https://certs.example/alice",
      PrivateKey := "KEY-1", PrivateKeyID := "kid-1" }
    rfl rfl (by decide)


/-! ## The Kubernetes verifier -/

/-- The outcome of `K8SIdentity.Validate`: it reports no error exactly when
the validation record is read and decoded, both base64 fields decode, the
TokenReview request is built and answered, the answer decodes and is
authenticated; and it returns unless the secret read panics. -/
theorem K8SValidate_spec {σ : Type} (env : Env σ) (k : K8SIdentity) (s : St σ) :
    (∀ tr, (k.Validate env s).res = .ret (tr, none) ↔
      ∃ record k2 ca b tok body,
        (GetKVSecretRetry env (k.ClusterName ++ "/validation") s).res = .ret (record, none) ∧
        env.decodeK8SIdentity record k = .ok k2 ∧
        env.base64Decode k2.ClusterCA = .ok ca ∧
        env.marshalTokenReview { SpecToken := k2.JWT } = .ok b ∧
        env.httpNewRequest "POST" (k2.ClusterHost ++ tokenReviewPath) = none ∧
        env.base64Decode k2.ValidationToken = .ok tok ∧
        (env.httpDo { RootCAs := some ca }
          { Method := "POST", URL := k2.ClusterHost ++ tokenReviewPath,
            Header := Header.Set (Header.Add [] "Authorization" ("Bearer " ++ tok))
              "Content-Type" "application/json",
            Body := b }
          (GetKVSecretRetry env (k.ClusterName ++ "/validation") s).st.world).1 = .ok body ∧
        env.decodeTokenReview body {} = (tr, none) ∧
        tr.StatusAuthenticated = true) ∧
    ((∃ r, (k.Validate env s).res = .ret r) ∨
      ∃ msg, (GetKVSecretRetry env (k.ClusterName ++ "/validation") s).res = .panicked msg) := by
  unfold K8SIdentity.Validate K8SIdentity.GetValidation
  rcases hq : GetKVSecretRetry env (k.ClusterName ++ "/validation") s with ⟨r, s1, ev⟩
  cases r with
  | panicked msg => simp [hq]
  | ret a =>
    rcases a with ⟨record, err⟩
    cases err with
    | some e => simp [hq]
    | none =>
      cases hd : env.decodeK8SIdentity record k with
      | error e => simp [hq, hd]
      | ok k2 =>
        cases hca : env.base64Decode k2.ClusterCA with
        | error e => simp [hq, hd, hca]
        | ok ca =>
          cases hb : env.marshalTokenReview { SpecToken := k2.JWT } with
          | error e => simp [hq, hd, hca, hb]
          | ok b =>
            cases hn : env.httpNewRequest "POST" (k2.ClusterHost ++ tokenReviewPath) with
            | some e => simp [hq, hd, hca, hb, hn]
            | none =>
              cases ht : env.base64Decode k2.ValidationToken with
              | error e => simp [hq, hd, hca, hb, hn, ht]
              | ok tok =>
                rcases hh : env.httpDo { RootCAs := some ca }
                    { Method := "POST", URL := k2.ClusterHost ++ tokenReviewPath,
                      Header := Header.Set (Header.Add [] "Authorization" ("Bearer " ++ tok))
                        "Content-Type" "application/json",
                      Body := b } s1.world with ⟨resp, w⟩
                cases resp with
                | error e => simp [hq, hd, hca, hb, hn, ht, hh]
                | ok body =>
                  rcases hr : env.decodeTokenReview body {} with ⟨trr, derr⟩
                  cases derr with
                  | some e => simp [hq, hd, hca, hb, hn, ht, hh, hr]
                  | none =>
                    cases ha : trr.StatusAuthenticated with
                    | false =>
                      simp [hq, hd, hca, hb, hn, ht, hh, hr, ha]
                    | true =>
                      simp [hq, hd, hca, hb, hn, ht, hh, hr, ha]

/-- The result of `ValidK8S` once the bag has decoded with a token: it is
decided by `Validate` and the reviewed username. -/
theorem ValidK8S_res {σ : Type} (env : Env σ) (id : Identity) (s : St σ) (kc : K8SCreds)
    (hp : id.Provider = "k8s") (hd : env.decodeK8SCreds id.Credentials = .ok kc)
    (hj : kc.JWT ≠ "") :
    (ValidK8S env id s).res =
      match (K8SIdentity.Validate env
          { ClusterName := kc.ClusterName, Namespace := kc.Namespace, SA := kc.SA,
            JWT := kc.JWT } s).res with
      | .ret (tr, none) => .ret (decide (tr.StatusUserUsername = id.ID))
      | .ret (_, some _) => .ret false
      | .panicked msg => .panicked msg := by
  unfold ValidK8S
  rw [M.res_emit_bind]
  simp only [hp, hd, hj, ne_eq, not_true_eq_false, if_false, M.bind_apply]
  cases hv : (K8SIdentity.Validate env
      { ClusterName := kc.ClusterName, Namespace := kc.Namespace, SA := kc.SA,
        JWT := kc.JWT } s).res with
  | panicked msg => rfl
  | ret a =>
    rcases a with ⟨tr, err⟩
    cases err with
    | some e => rfl
    | none =>
      by_cases hu : tr.StatusUserUsername = id.ID <;> simp [hu]

/-- The result of `ValidK8S` when the tag, the bag or the token is
missing. -/
theorem ValidK8S_res_false {σ : Type} (env : Env σ) (id : Identity) (s : St σ)
    (h : id.Provider ≠ "k8s" ∨ (∃ e, env.decodeK8SCreds id.Credentials = .error e) ∨
      ∃ kc, env.decodeK8SCreds id.Credentials = .ok kc ∧ kc.JWT = "") :
    (ValidK8S env id s).res = .ret false := by
  unfold ValidK8S
  rw [M.res_emit_bind]
  by_cases hp : id.Provider = "k8s"
  · rcases h with h | ⟨e, h⟩ | ⟨kc, h, hj⟩
    · exact absurd hp h
    · simp [hp, h]
    · simp [hp, h, hj]
  · simp [hp]

/-- When `ValidK8S` accepts: it returns true exactly when the provider is
`k8s`, the bag decodes with a non-empty `jwt`, the validation record is
read and decoded, the TokenReview call succeeds and is authenticated, and
the reviewed username equals `id.ID`. In every other outcome in which the
secret read returns, it returns false; the outcome left is a panic of the
secret read. -/
theorem ValidK8S_iff {σ : Type} (env : Env σ) (id : Identity) (s : St σ) :
    ((ValidK8S env id s).res = .ret true ↔
      id.Provider = "k8s" ∧
      ∃ kc, env.decodeK8SCreds id.Credentials = .ok kc ∧ kc.JWT ≠ "" ∧
        ∃ record k2 ca b tok body tr,
          (GetKVSecretRetry env (kc.ClusterName ++ "/validation") s).res = .ret (record, none) ∧
          env.decodeK8SIdentity record
            { ClusterName := kc.ClusterName, Namespace := kc.Namespace, SA := kc.SA,
              JWT := kc.JWT } = .ok k2 ∧
          env.base64Decode k2.ClusterCA = .ok ca ∧
          env.marshalTokenReview { SpecToken := k2.JWT } = .ok b ∧
          env.httpNewRequest "POST" (k2.ClusterHost ++ tokenReviewPath) = none ∧
          env.base64Decode k2.ValidationToken = .ok tok ∧
          (env.httpDo { RootCAs := some ca }
            { Method := "POST", URL := k2.ClusterHost ++ tokenReviewPath,
              Header := Header.Set (Header.Add [] "Authorization" ("Bearer " ++ tok))
                "Content-Type" "application/json",
              Body := b }
            (GetKVSecretRetry env (kc.ClusterName ++ "/validation") s).st.world).1 = .ok body ∧
          env.decodeTokenReview body {} = (tr, none) ∧
          tr.StatusAuthenticated = true ∧
          tr.StatusUserUsername = id.ID) ∧
    ((ValidK8S env id s).res = .ret true ∨ (ValidK8S env id s).res = .ret false ∨
      ∃ kc msg, env.decodeK8SCreds id.Credentials = .ok kc ∧
        (GetKVSecretRetry env (kc.ClusterName ++ "/validation") s).res = .panicked msg) := by
  by_cases hp : id.Provider = "k8s"
  · cases hd : env.decodeK8SCreds id.Credentials with
    | error e =>
      have hf := ValidK8S_res_false env id s (Or.inr (Or.inl ⟨e, hd⟩))
      refine ⟨?_, Or.inr (Or.inl hf)⟩
      rw [hf]
      constructor
      · intro h
        cases h
      · rintro ⟨_, kc, h, _⟩
        cases h
    | ok kc =>
      by_cases hj : kc.JWT = ""
      · have hf := ValidK8S_res_false env id s (Or.inr (Or.inr ⟨kc, hd, hj⟩))
        refine ⟨?_, Or.inr (Or.inl hf)⟩
        rw [hf]
        constructor
        · intro h
          cases h
        · rintro ⟨_, kc2, h, hj2, _⟩
          injection h with h
          subst h
          exact absurd hj hj2
      · have hres := ValidK8S_res env id s kc hp hd hj
        obtain ⟨hv, hr⟩ := K8SValidate_spec env
          { ClusterName := kc.ClusterName, Namespace := kc.Namespace, SA := kc.SA,
            JWT := kc.JWT } s
        refine ⟨?_, ?_⟩
        · constructor
          · intro h
            rw [hres] at h
            cases hq : (K8SIdentity.Validate env
                { ClusterName := kc.ClusterName, Namespace := kc.Namespace, SA := kc.SA,
                  JWT := kc.JWT } s).res with
            | panicked msg =>
              rw [hq] at h
              cases h
            | ret a =>
              rcases a with ⟨tr, err⟩
              cases err with
              | some e =>
                rw [hq] at h
                cases h
              | none =>
                rw [hq] at h
                have hu : tr.StatusUserUsername = id.ID := by
                  injection h with h
                  exact of_decide_eq_true h
                obtain ⟨record, k2, ca, b, tok, body, h1, h2, h3, h4, h5, h6, h7, h8, h9⟩ :=
                  (hv tr).mp hq
                exact ⟨hp, kc, rfl, hj, record, k2, ca, b, tok, body, tr,
                  h1, h2, h3, h4, h5, h6, h7, h8, h9, hu⟩
          · rintro ⟨_, kc2, h, _, record, k2, ca, b, tok, body, tr,
              h1, h2, h3, h4, h5, h6, h7, h8, h9, hu⟩
            injection h with h
            subst h
            have hq := (hv tr).mpr ⟨record, k2, ca, b, tok, body, h1, h2, h3, h4, h5, h6, h7, h8, h9⟩
            rw [hres, hq]
            simp [hu]
        · rcases hr with ⟨r, hr⟩ | ⟨msg, hm⟩
          · rw [hres, hr]
            rcases r with ⟨tr, err⟩
            cases err with
            | some e => exact Or.inr (Or.inl rfl)
            | none =>
              by_cases hu : tr.StatusUserUsername = id.ID
              · exact Or.inl (by simp [hu])
              · exact Or.inr (Or.inl (by simp [hu]))
          · exact Or.inr (Or.inr ⟨kc, msg, rfl, hm⟩)
  · have hf := ValidK8S_res_false env id s (Or.inl hp)
    refine ⟨?_, Or.inr (Or.inl hf)⟩
    rw [hf]
    constructor
    · intro h
      cases h
    · rintro ⟨h, _⟩
      exact absurd h hp

/-- Alice, holding her service-account token, is accepted under her own
name. -/
theorem ValidK8S_iff_witness : (ValidK8S demoEnv aliceK8S demoState).res = .ret true :=
  (ValidK8S_iff demoEnv aliceK8S demoState).1.mpr
    ⟨rfl, { ClusterName := "prod", JWT := "alice-jwt" }, rfl, by decide,
      some [("clusterHost", .string "https://k8s.example"), ("clusterCA", .string "Q0E="),
        ("validationToken", .string "dG9r")],
      { ClusterName := "prod", JWT := "alice-jwt", ClusterHost := "https://k8s.example",
        ClusterCA := "Q0E=", ValidationToken := "dG9r" },
      "CA", "alice-jwt", "tok", "review-alice",
      { StatusAuthenticated := true, StatusUserUsername := aliceServiceAccount },
      rfl, rfl, rfl, rfl, rfl, rfl, rfl, rfl, rfl, rfl⟩


/-! ## Lemmas on the handler -/

section HandlerLemmas

variable {σ : Type} (env : Env σ)

theorem newRequestID_onlyExternal : (newRequestID env).OnlyExternal := by
  unfold newRequestID
  exact M.onlyExternal_bind (M.onlyExternal_emit _ rfl) (fun _ => M.onlyExternal_world _)

theorem correlate_onlyExternal (r : Request) : (correlate env r).OnlyExternal := by
  unfold correlate
  repeat' first
    | exact M.onlyExternal_pure _
    | exact newRequestID_onlyExternal env
    | refine M.onlyExternal_bind ?_ (fun _ => ?_)
    | dsimp only
    | split

theorem correlate_returns (r : Request) : (correlate env r).Returns := by
  unfold correlate newRequestID
  repeat' first
    | exact M.returns_pure _
    | exact M.returns_world _
    | exact M.returns_emit _
    | refine M.returns_bind ?_ (fun _ => ?_)
    | dsimp only
    | split

/-- The request before decoding carries one token in its three fields:
the header when it is not empty, else the generated token. -/
theorem correlate_res (r : Request) (s : St σ) :
    (correlate env r s).res =
      .ret { Source := { RequestID :=
                if Header.Get r.Header "x-request-id" = "" then (env.uuidNew s.world).1
                else Header.Get r.Header "x-request-id" }
             Target := { RequestID :=
                if Header.Get r.Header "x-request-id" = "" then (env.uuidNew s.world).1
                else Header.Get r.Header "x-request-id" }
             RequestID :=
                if Header.Get r.Header "x-request-id" = "" then (env.uuidNew s.world).1
                else Header.Get r.Header "x-request-id" } := by
  unfold correlate newRequestID
  by_cases h : Header.Get r.Header "x-request-id" = "" <;> simp [h]

theorem FindIDinMap_ok_ids (im : IAMMap) (iamMap : List IAMMap) (i : IAMMap)
    (h : FindIDinMap im iamMap = .ok i) :
    im.Source.ID = i.Source.ID ∧ im.Target.ID = i.Target.ID := by
  induction iamMap with
  | nil => simp [FindIDinMap] at h
  | cons iam rest ih =>
    unfold FindIDinMap at h
    split at h
    · rename_i hm
      injection h with h
      subst h
      exact hm
    · exact ih h

/-- The events of `GetCredentials`: its own entry, then no further entry
into the minter. -/
theorem GetCredentials_events (im : IAMMap) (s : St σ) :
    ∃ rest, (GetCredentials env im s).events = .GetCredentials im :: rest ∧
      ∀ e ∈ rest, e.isMint = false ∧ e.isLookup = false ∧ e.isVerifier = false := by
  unfold GetCredentials
  rw [M.events_emit_bind]
  refine ⟨_, rfl, ?_⟩
  have hx : ∀ (id : Identity) (e0 : Event) (l : List Event), e0.isMint = false →
      e0.isLookup = false → e0.isVerifier = false → (∀ e ∈ l, e.isExternal = true) →
      ∀ e ∈ e0 :: l, e.isMint = false ∧ e.isLookup = false ∧ e.isVerifier = false := by
    intro id e0 l h1 h2 h3 hl e he
    rcases List.mem_cons.mp he with he | he
    · subst he
      exact ⟨h1, h2, h3⟩
    · exact ⟨Event.not_mint_of_external e (hl e he), Event.not_lookup_of_external e (hl e he),
        Event.not_verifier_of_external e (hl e he)⟩
  split
  · obtain ⟨rest, h, hr⟩ := GetGCPSAFromVault_events env im.Target s
    intro e he
    rw [M.bind_apply] at he
    have he2 : e ∈ (GetGCPSAFromVault env im.Target s).events := by
      cases hq : (GetGCPSAFromVault env im.Target s).res <;> simp [hq] at he <;> exact he
    rw [h] at he2
    exact hx im.Target (.GetGCPSAFromVault im.Target) rest rfl rfl rfl hr e he2
  · split
    · obtain ⟨rest, h, hr⟩ := CreateAWSSession_events env im.Target s
      intro e he
      rw [M.bind_apply] at he
      have he2 : e ∈ (CreateAWSSession env im.Target s).events := by
        cases hq : (CreateAWSSession env im.Target s).res <;> simp [hq] at he <;> exact he
      rw [h] at he2
      exact hx im.Target (.CreateAWSSession im.Target) rest rfl rfl rfl hr e he2
    · split
      · obtain ⟨rest, h, hr⟩ := GetK8SSSAFromVault_events env im.Target s
        intro e he
        rw [M.bind_apply] at he
        have he2 : e ∈ (GetK8SSSAFromVault env im.Target s).events := by
          cases hq : (GetK8SSSAFromVault env im.Target s).res <;> simp [hq] at he <;> exact he
        rw [h] at he2
        exact hx im.Target (.GetK8SSSAFromVault im.Target) rest rfl rfl rfl hr e he2
      · intro e he
        simp at he

/-- The mapping returned by `GetCredentials` differs from its receiver in
the target only. -/
theorem GetCredentials_frame (im : IAMMap) (s : St σ) (r : Credentials × Option Error)
    (im2 : IAMMap) (h : (GetCredentials env im s).res = .ret (r, im2)) :
    im2.RequestID = im.RequestID ∧ im2.Source = im.Source := by
  unfold GetCredentials at h
  rw [M.res_emit_bind] at h
  split at h
  · rw [M.bind_apply] at h
    cases hq : (GetGCPSAFromVault env im.Target s).res <;> simp [hq] at h
    rw [← h.2]
    exact ⟨rfl, rfl⟩
  · split at h
    · rw [M.bind_apply] at h
      cases hq : (CreateAWSSession env im.Target s).res <;> simp [hq] at h
      rw [← h.2]
      exact ⟨rfl, rfl⟩
    · split at h
      · rw [M.bind_apply] at h
        cases hq : (GetK8SSSAFromVault env im.Target s).res <;> simp [hq] at h
        rw [← h.2]
        exact ⟨rfl, rfl⟩
      · simp at h
        rw [← h.2]
        exact ⟨rfl, rfl⟩

/-- Exit at line 49: the body does not decode. -/
theorem handle_bad_request (r : Request) (IdMaps : List IAMMap) (s s0 : St σ)
    (mm0 mm : IAMMap) (ev0 : List Event) (e : Error)
    (hc : correlate env r s = { res := .ret mm0, st := s0, events := ev0 })
    (hd : jsonDecodeIAMMap r.Body mm0 = (mm, some e)) :
    handleIdentityRequest env r IdMaps s =
      { res := .ret (httpError { Header := Header.Add [] "x-request-id" mm.RequestID } e
          StatusBadRequest),
        st := s0, events := ev0 } := by
  unfold handleIdentityRequest
  simp [M.bind_apply, hc, hd]

/-- Exit at line 56: the verifier returns false. -/
theorem handle_invalid_source (r : Request) (IdMaps : List IAMMap) (s s0 s1 : St σ)
    (mm0 mm : IAMMap) (ev0 ev1 : List Event)
    (hc : correlate env r s = { res := .ret mm0, st := s0, events := ev0 })
    (hd : jsonDecodeIAMMap r.Body mm0 = (mm, none))
    (hv : Valid env mm.Source s0 = { res := .ret false, st := s1, events := ev1 }) :
    handleIdentityRequest env r IdMaps s =
      { res := .ret (ResponseWriter.WriteHeader
          { Header := Header.Add [] "x-request-id" mm.RequestID } StatusUnauthorized),
        st := s1, events := ev0 ++ ev1 } := by
  unfold handleIdentityRequest
  simp [M.bind_apply, hc, hd, hv]

/-- The verifier panics. -/
theorem handle_verifier_panic (r : Request) (IdMaps : List IAMMap) (s s0 s1 : St σ)
    (mm0 mm : IAMMap) (ev0 ev1 : List Event) (msg : String)
    (hc : correlate env r s = { res := .ret mm0, st := s0, events := ev0 })
    (hd : jsonDecodeIAMMap r.Body mm0 = (mm, none))
    (hv : Valid env mm.Source s0 = { res := .panicked msg, st := s1, events := ev1 }) :
    handleIdentityRequest env r IdMaps s =
      { res := .panicked msg, st := s1, events := ev0 ++ ev1 } := by
  unfold handleIdentityRequest
  simp [M.bind_apply, hc, hd, hv]

/-- Exit at line 64: no mapping is found. -/
theorem handle_not_found (r : Request) (IdMaps : List IAMMap) (s s0 s1 : St σ)
    (mm0 mm : IAMMap) (ev0 ev1 : List Event) (e : Error)
    (hc : correlate env r s = { res := .ret mm0, st := s0, events := ev0 })
    (hd : jsonDecodeIAMMap r.Body mm0 = (mm, none))
    (hv : Valid env mm.Source s0 = { res := .ret true, st := s1, events := ev1 })
    (hf : FindIDinMap mm IdMaps = .error e) :
    handleIdentityRequest env r IdMaps s =
      { res := .ret (ResponseWriter.WriteHeader
          { Header := Header.Add [] "x-request-id" mm.RequestID } StatusNotFound),
        st := s1, events := ev0 ++ (ev1 ++ [.FindIDinMap mm IdMaps]) } := by
  unfold handleIdentityRequest
  simp [M.bind_apply, hc, hd, hv, hf]

/-- The mint step and the three exits after it. -/
theorem handle_mint (r : Request) (IdMaps : List IAMMap) (s s0 s1 s2 : St σ)
    (mm0 mm i : IAMMap) (ev0 ev1 ev2 : List Event)
    (rg : Res ((Credentials × Option Error) × IAMMap))
    (hc : correlate env r s = { res := .ret mm0, st := s0, events := ev0 })
    (hd : jsonDecodeIAMMap r.Body mm0 = (mm, none))
    (hv : Valid env mm.Source s0 = { res := .ret true, st := s1, events := ev1 })
    (hf : FindIDinMap mm IdMaps = .ok i)
    (hg : GetCredentials env (readdRequest mm i).1 s1 = { res := rg, st := s2, events := ev2 }) :
    handleIdentityRequest env r IdMaps s =
      { res := respond env rg,
        st := s2, events := ev0 ++ (ev1 ++ (.FindIDinMap mm IdMaps :: ev2)) } := by
  unfold handleIdentityRequest
  cases rg with
  | panicked msg => simp [M.bind_apply, hc, hd, hv, hf, hg, respond]
  | ret a =>
    rcases a with ⟨⟨c, cerr⟩, im⟩
    cases cerr with
    | some e => simp [M.bind_apply, hc, hd, hv, hf, hg, respond]
    | none =>
      cases hj : env.jsonMarshal c <;> simp [M.bind_apply, hc, hd, hv, hf, hg, hj, respond]

end HandlerLemmas


section StageLemmas

variable {σ : Type} (env : Env σ)

theorem correlate_eq (r : Request) (s : St σ) :
    correlate env r s =
      { res := .ret (correlated env r s), st := (correlate env r s).st,
        events := (correlate env r s).events } := by
  obtain ⟨mm, h⟩ := correlate_returns env r s
  have h2 : correlated env r s = mm := by
    unfold correlated
    rw [h]
  rw [h2, ← h]

theorem Valid_events_quiet (id : Identity) (s : St σ) :
    ∀ e ∈ (Valid env id s).events, e.isMint = false ∧ e.isLookup = false := by
  intro e he
  rcases Valid_events env id s with h | ⟨v, rest, h, hv, hr⟩
  · rw [h] at he
    simp at he
    subst he
    exact ⟨rfl, rfl⟩
  · rw [h] at he
    simp only [List.mem_cons] at he
    rcases he with he | he | he
    · subst he
      exact ⟨rfl, rfl⟩
    · subst he
      cases e <;> simp_all [Event.isVerifier, Event.isMint, Event.isLookup]
    · exact ⟨Event.not_mint_of_external e (hr e he), Event.not_lookup_of_external e (hr e he)⟩

theorem correlate_events_quiet (r : Request) (s : St σ) :
    ∀ e ∈ (correlate env r s).events, e.isMint = false ∧ e.isLookup = false := by
  intro e he
  have h := correlate_onlyExternal env r s e he
  exact ⟨Event.not_mint_of_external e h, Event.not_lookup_of_external e h⟩

/-- The handler once the source is verified and a mapping is found. -/
theorem handle_authorized (r : Request) (IdMaps : List IAMMap) (s : St σ) (i : IAMMap)
    (hd : (decoded env r s).2 = none) (hv : (verified env r s).res = .ret true)
    (hf : FindIDinMap (decoded env r s).1 IdMaps = .ok i) :
    handleIdentityRequest env r IdMaps s =
      { res := respond env (minted env r s i).res,
        st := (minted env r s i).st,
        events := (correlate env r s).events ++ ((verified env r s).events ++
          (.FindIDinMap (decoded env r s).1 IdMaps :: (minted env r s i).events)) } := by
  have hd2 : jsonDecodeIAMMap r.Body (correlated env r s) = ((decoded env r s).1, none) := by
    rw [← hd]
    rfl
  have hv2 : Valid env (decoded env r s).1.Source (correlate env r s).st =
      { res := .ret true, st := (verified env r s).st, events := (verified env r s).events } := by
    rw [← hv]
    rfl
  have hg : GetCredentials env (readdRequest (decoded env r s).1 i).1 (verified env r s).st =
      { res := (minted env r s i).res, st := (minted env r s i).st,
        events := (minted env r s i).events } := rfl
  exact handle_mint env r IdMaps s _ _ _ _ _ i _ _ _ _ (correlate_eq env r s) hd2 hv2 hf hg

end StageLemmas

/-! ## C2: the minter is reached only through verification and lookup -/

/-- C2: if `GetCredentials` is entered while a request is handled, then the
body decoded, the verifier returned true and `FindIDinMap` found a mapping
in the snapshot it was given, and the calls made are those of the
verifier, then the lookup, then those of the minter. If the verifier
returns false, neither the lookup nor the minter is entered. -/
theorem mint_requires_verify_and_lookup {σ : Type} (env : Env σ) (r : Request)
    (IdMaps : List IAMMap) (s : St σ) :
    ((∃ e ∈ (handleIdentityRequest env r IdMaps s).events, e.isMint = true) →
      (decoded env r s).2 = none ∧ (verified env r s).res = .ret true ∧
      ∃ i, FindIDinMap (decoded env r s).1 IdMaps = .ok i ∧
        (handleIdentityRequest env r IdMaps s).events =
          (correlate env r s).events ++ ((verified env r s).events ++
            (.FindIDinMap (decoded env r s).1 IdMaps :: (minted env r s i).events))) ∧
    ((decoded env r s).2 = none → (verified env r s).res = .ret false →
      ∀ e ∈ (handleIdentityRequest env r IdMaps s).events,
        e.isLookup = false ∧ e.isMint = false) := by
  have hc := correlate_eq env r s
  have hq0 := correlate_events_quiet env r s
  have hq1 := Valid_events_quiet env (decoded env r s).1.Source (correlate env r s).st
  refine ⟨?_, ?_⟩
  · rintro ⟨e, he, hm⟩
    cases hd : (decoded env r s).2 with
    | some err =>
      have hd2 : jsonDecodeIAMMap r.Body (correlated env r s) = ((decoded env r s).1, some err) := by
        rw [← hd]
        rfl
      rw [handle_bad_request env r IdMaps s _ _ _ _ err hc hd2] at he
      rw [(hq0 e he).1] at hm
      cases hm
    | none =>
      have hd2 : jsonDecodeIAMMap r.Body (correlated env r s) = ((decoded env r s).1, none) := by
        rw [← hd]
        rfl
      cases hv : (verified env r s).res with
      | panicked msg =>
        have hv2 : Valid env (decoded env r s).1.Source (correlate env r s).st =
            { res := .panicked msg, st := (verified env r s).st,
              events := (verified env r s).events } := by
          rw [← hv]
          rfl
        rw [handle_verifier_panic env r IdMaps s _ _ _ _ _ _ msg hc hd2 hv2] at he
        rcases List.mem_append.mp he with he | he
        · rw [(hq0 e he).1] at hm
          cases hm
        · rw [(hq1 e he).1] at hm
          cases hm
      | ret b =>
        cases b with
        | false =>
          have hv2 : Valid env (decoded env r s).1.Source (correlate env r s).st =
              { res := .ret false, st := (verified env r s).st,
                events := (verified env r s).events } := by
            rw [← hv]
            rfl
          rw [handle_invalid_source env r IdMaps s _ _ _ _ _ _ hc hd2 hv2] at he
          rcases List.mem_append.mp he with he | he
          · rw [(hq0 e he).1] at hm
            cases hm
          · rw [(hq1 e he).1] at hm
            cases hm
        | true =>
          have hv2 : Valid env (decoded env r s).1.Source (correlate env r s).st =
              { res := .ret true, st := (verified env r s).st,
                events := (verified env r s).events } := by
            rw [← hv]
            rfl
          cases hf : FindIDinMap (decoded env r s).1 IdMaps with
          | error err =>
            rw [handle_not_found env r IdMaps s _ _ _ _ _ _ err hc hd2 hv2 hf] at he
            rcases List.mem_append.mp he with he | he
            · rw [(hq0 e he).1] at hm
              cases hm
            · rcases List.mem_append.mp he with he | he
              · rw [(hq1 e he).1] at hm
                cases hm
              · simp at he
                subst he
                cases hm
          | ok i =>
            refine ⟨rfl, rfl, i, rfl, ?_⟩
            rw [handle_authorized env r IdMaps s i hd hv hf]
  · intro hd hv e he
    have hd2 : jsonDecodeIAMMap r.Body (correlated env r s) = ((decoded env r s).1, none) := by
      rw [← hd]
      rfl
    have hv2 : Valid env (decoded env r s).1.Source (correlate env r s).st =
        { res := .ret false, st := (verified env r s).st,
          events := (verified env r s).events } := by
      rw [← hv]
      rfl
    rw [handle_invalid_source env r IdMaps s _ _ _ _ _ _ hc hd2 hv2] at he
    rcases List.mem_append.mp he with he | he
    · exact ⟨(hq0 e he).2, (hq0 e he).1⟩
    · exact ⟨(hq1 e he).2, (hq1 e he).1⟩

/-- Witness for C2: with Alice's keys under the ARN of Eve (boundary
scenario 2) the verifier returns false and neither lookup nor minter is
entered. -/
theorem mint_requires_verify_and_lookup_witness :
    (verified demoEnv eveRequest demoState).res = .ret false ∧
    ∀ e ∈ (handleIdentityRequest demoEnv eveRequest happySnapshot demoState).events,
      e.isLookup = false ∧ e.isMint = false :=
  ⟨by decide,
    (mint_requires_verify_and_lookup demoEnv eveRequest happySnapshot demoState).2
      (by decide) (by decide)⟩


/-! ## C3: the status of the response -/

/-- C3, as stated, fails: in boundary scenario 1 with a stored target bag
that holds a NaN, the body decodes, the verifier returns true, the lookup
finds the mapping and the minter returns a bag without error, yet the
status is 500, since the bag does not serialize. -/
theorem handle_serialization_error :
    (decoded demoEnv happyRequest demoState).2 = none ∧
    (verified demoEnv happyRequest demoState).res = .ret true ∧
    FindIDinMap (decoded demoEnv happyRequest demoState).1 nanSnapshot = .ok nanMapping ∧
    (∃ c im, (minted demoEnv happyRequest demoState nanMapping).res = .ret ((c, none), im)) ∧
    (handleIdentityRequest demoEnv happyRequest nanSnapshot demoState).res =
      .ret { Header := [("x-request-id", "generated-token"),
                        ("Content-Type", "text/plain; charset=utf-8"),
                        ("X-Content-Type-Options", "nosniff")],
             Status := some 500,
             Body := "json: unsupported value: NaN\n" } := by
  refine ⟨by decide, by decide, rfl, ⟨_, _, rfl⟩, by decide⟩

/-- C3, amended: the status is fixed by the first stage that fails. A body
that does not decode gives 400; else a verifier returning false gives 401
whatever the snapshot holds; else a lookup without a match gives 404; else
a minter returning an error gives 401; else, the minter having returned a
bag, a bag that does not serialize gives 500 and one that does gives 200
with that serialization as the body. -/
theorem handle_status {σ : Type} (env : Env σ) (r : Request) (IdMaps : List IAMMap)
    (s : St σ) :
    (∀ e, (decoded env r s).2 = some e →
      ∃ w, (handleIdentityRequest env r IdMaps s).res = .ret w ∧ w.Status = some 400) ∧
    ((decoded env r s).2 = none → (verified env r s).res = .ret false →
      ∃ w, (handleIdentityRequest env r IdMaps s).res = .ret w ∧ w.Status = some 401) ∧
    ((decoded env r s).2 = none → (verified env r s).res = .ret true →
      ∀ e, FindIDinMap (decoded env r s).1 IdMaps = .error e →
      ∃ w, (handleIdentityRequest env r IdMaps s).res = .ret w ∧ w.Status = some 404) ∧
    ((decoded env r s).2 = none → (verified env r s).res = .ret true →
      ∀ i, FindIDinMap (decoded env r s).1 IdMaps = .ok i →
      (∀ c e im, (minted env r s i).res = .ret ((c, some e), im) →
        ∃ w, (handleIdentityRequest env r IdMaps s).res = .ret w ∧ w.Status = some 401) ∧
      (∀ c im e, (minted env r s i).res = .ret ((c, none), im) →
        env.jsonMarshal c = .error e →
        ∃ w, (handleIdentityRequest env r IdMaps s).res = .ret w ∧ w.Status = some 500) ∧
      (∀ c im jd, (minted env r s i).res = .ret ((c, none), im) →
        env.jsonMarshal c = .ok jd →
        ∃ w, (handleIdentityRequest env r IdMaps s).res = .ret w ∧ w.Status = some 200 ∧
          w.Body = jd)) := by
  have hc := correlate_eq env r s
  refine ⟨?_, ?_, ?_, ?_⟩
  · intro e hd
    have hd2 : jsonDecodeIAMMap r.Body (correlated env r s) = ((decoded env r s).1, some e) := by
      rw [← hd]
      rfl
    rw [handle_bad_request env r IdMaps s _ _ _ _ e hc hd2]
    exact ⟨_, rfl, rfl⟩
  · intro hd hv
    have hd2 : jsonDecodeIAMMap r.Body (correlated env r s) = ((decoded env r s).1, none) := by
      rw [← hd]
      rfl
    have hv2 : Valid env (decoded env r s).1.Source (correlate env r s).st =
        { res := .ret false, st := (verified env r s).st,
          events := (verified env r s).events } := by
      rw [← hv]
      rfl
    rw [handle_invalid_source env r IdMaps s _ _ _ _ _ _ hc hd2 hv2]
    exact ⟨_, rfl, rfl⟩
  · intro hd hv e hf
    have hd2 : jsonDecodeIAMMap r.Body (correlated env r s) = ((decoded env r s).1, none) := by
      rw [← hd]
      rfl
    have hv2 : Valid env (decoded env r s).1.Source (correlate env r s).st =
        { res := .ret true, st := (verified env r s).st,
          events := (verified env r s).events } := by
      rw [← hv]
      rfl
    rw [handle_not_found env r IdMaps s _ _ _ _ _ _ e hc hd2 hv2 hf]
    exact ⟨_, rfl, rfl⟩
  · intro hd hv i hf
    rw [handle_authorized env r IdMaps s i hd hv hf]
    refine ⟨?_, ?_, ?_⟩
    · intro c e im hm
      simp only [hm, respond]
      exact ⟨_, rfl, rfl⟩
    · intro c im e hm hj
      simp only [hm, respond, hj]
      refine ⟨_, rfl, ?_⟩
      simp [httpError, ResponseWriter.Write, ResponseWriter.WriteHeader,
        StatusInternalServerError]
    · intro c im jd hm hj
      simp only [hm, respond, hj]
      refine ⟨_, rfl, rfl, ?_⟩
      simp [ResponseWriter.Write, ResponseWriter.WriteHeader]

/-- Witness for C3: boundary scenario 1 is answered 200 with the
serialized session credentials as the whole body. -/
theorem handle_status_witness :
    ∃ w, (handleIdentityRequest demoEnv happyRequest happySnapshot demoState).res = .ret w ∧
      w.Status = some 200 ∧
      w.Body = "AccessKeyId=ASIATEMP;SecretAccessKey=temp-secret;SessionToken=stratus-generated-token;" :=
  ((handle_status demoEnv happyRequest happySnapshot demoState).2.2.2 (by decide) (by decide)
    { Source := { ID := aliceArn, Provider := "aws" }
      Target := { ID := readRoleArn, Provider := "aws" } } rfl).2.2
    (some [("AccessKeyId", .string "ASIATEMP"), ("SecretAccessKey", .string "temp-secret"),
      ("SessionToken", .string "stratus-generated-token")])
    _ _ rfl rfl

/-! ## C4: the correlation header of the response -/

/-- C4 fails on the code: a request with header `x-request-id:
caller-token` whose body carries a member `requestId` is answered with
`x-request-id: forged`, because the body is decoded into the map after the
header was stored in it. A body that is not JSON leaves the header as the
caller sent it. -/
theorem handle_request_id_forged :
    (handleIdentityRequest demoEnv forgedRequest happySnapshot demoState).res =
      .ret { Header := [("x-request-id", "forged")], Status := some 200,
             Body := "AccessKeyId=ASIATEMP;SecretAccessKey=temp-secret;SessionToken=stratus-caller-token;" } ∧
    Header.Get forgedRequest.Header "x-request-id" = "caller-token" ∧
    (handleIdentityRequest demoEnv brokenRequest happySnapshot demoState).res =
      .ret { Header := [("x-request-id", "caller-token"),
                        ("Content-Type", "text/plain; charset=utf-8"),
                        ("X-Content-Type-Options", "nosniff")],
             Status := some 400,
             Body := "invalid character or unexpected end of JSON input\n" } := by
  refine ⟨?_, ?_, ?_⟩ <;> decide

/-! ## C5: what the minter is given -/

/-- C5: once the source is verified and the lookup returns `i`,
`GetCredentials` is entered exactly with the request map whose target
carries the credentials of `i`; its target id is that of `i`, whatever
target credentials the body carried; and the source credentials put on
`i` are those of the request. -/
theorem mint_input {σ : Type} (env : Env σ) (r : Request) (IdMaps : List IAMMap) (s : St σ)
    (i : IAMMap) (hd : (decoded env r s).2 = none) (hv : (verified env r s).res = .ret true)
    (hf : FindIDinMap (decoded env r s).1 IdMaps = .ok i) :
    Event.GetCredentials (readdRequest (decoded env r s).1 i).1 ∈
      (handleIdentityRequest env r IdMaps s).events ∧
    (∀ e ∈ (handleIdentityRequest env r IdMaps s).events, e.isMint = true →
      e = Event.GetCredentials (readdRequest (decoded env r s).1 i).1) ∧
    (readdRequest (decoded env r s).1 i).1.Target.ID = i.Target.ID ∧
    (readdRequest (decoded env r s).1 i).1.Target.Credentials = i.Target.Credentials ∧
    (readdRequest (decoded env r s).1 i).2.Source.Credentials =
      (decoded env r s).1.Source.Credentials := by
  have hev : (handleIdentityRequest env r IdMaps s).events =
      (correlate env r s).events ++ ((verified env r s).events ++
        (.FindIDinMap (decoded env r s).1 IdMaps :: (minted env r s i).events)) := by
    rw [handle_authorized env r IdMaps s i hd hv hf]
  obtain ⟨rest, hg, hrest⟩ :=
    GetCredentials_events env (readdRequest (decoded env r s).1 i).1 (verified env r s).st
  have hg2 : (minted env r s i).events =
      .GetCredentials (readdRequest (decoded env r s).1 i).1 :: rest := hg
  refine ⟨?_, ?_, ?_, rfl, rfl⟩
  · rw [hev, hg2]
    simp
  · intro e he hm
    rw [hev, hg2] at he
    rcases List.mem_append.mp he with he | he
    · rw [(correlate_events_quiet env r s e he).1] at hm
      cases hm
    · rcases List.mem_append.mp he with he | he
      · rw [(Valid_events_quiet env _ _ e he).1] at hm
        cases hm
      · rcases List.mem_cons.mp he with he | he
        · subst he
          cases hm
        · rcases List.mem_cons.mp he with he | he
          · exact he
          · rw [(hrest e he).1] at hm
            cases hm
  · exact (FindIDinMap_ok_ids _ _ _ hf).2

/-- Witness for C5: in boundary scenario 1 the minter is given the stored
target. -/
theorem mint_input_witness :
    Event.GetCredentials
        (readdRequest (decoded demoEnv happyRequest demoState).1
          { Source := { ID := aliceArn, Provider := "aws" }
            Target := { ID := readRoleArn, Provider := "aws" } }).1 ∈
      (handleIdentityRequest demoEnv happyRequest happySnapshot demoState).events :=
  (mint_input demoEnv happyRequest happySnapshot demoState
    { Source := { ID := aliceArn, Provider := "aws" }
      Target := { ID := readRoleArn, Provider := "aws" } } (by decide) (by decide) rfl).1

/-! ## Lemmas on the reads and logins of the vault client -/

section RetryLemmas

variable {σ : Type} (env : Env σ)

/-- A read of a non-empty path, unfolded. -/
theorem GetKVSecret_apply (p : String) (s : St σ) (hp : p ≠ "") :
    GetKVSecret env p s =
      { res :=
          match (env.vaultRead s.vc.Client (kvRoot ++ p) s.world).1 with
          | .error err => .ret (none, some err)
          | .ok secret =>
            match secret.bind (fun x => x.Data) with
            | none => .ret (none, some "secret not found")
            | some data =>
              match data.lookup "data" with
              | some (.object kvs) => .ret (some kvs, none)
              | _ => .panicked "interface conversion: interface is not map[string]interface",
        st := { s with world := (env.vaultRead s.vc.Client (kvRoot ++ p) s.world).2 },
        events := [.vaultRead (kvRoot ++ p)] } := by
  unfold GetKVSecret
  rcases hr : env.vaultRead s.vc.Client (kvRoot ++ p) s.world with ⟨r, w⟩
  cases r with
  | error e => simp [hp, hr]
  | ok secret =>
    cases hd : secret.bind (fun x => x.Data) with
    | none => simp [hp, hr, hd]
    | some data =>
      cases hl : data.lookup "data" with
      | none => simp [hp, hr, hd, hl]
      | some v => cases v <;> simp [hp, hr, hd, hl]

/-- A read of the empty path calls nothing. -/
theorem GetKVSecret_empty (s : St σ) :
    GetKVSecret env "" s =
      { res := .ret (none, some "secret path required"), st := s, events := [] } := by
  unfold GetKVSecret
  simp

theorem GetKVSecret_events (p : String) (s : St σ) :
    (GetKVSecret env p s).events = [] ∨
      (GetKVSecret env p s).events = [.vaultRead (kvRoot ++ p)] := by
  by_cases hp : p = ""
  · subst hp
    rw [GetKVSecret_empty]
    exact Or.inl rfl
  · rw [GetKVSecret_apply env p s hp]
    exact Or.inr rfl

theorem NewToken_events (s : St σ) :
    (NewToken env s).events = [] ∨ ∃ path, (NewToken env s).events = [.vaultWrite path] := by
  unfold NewToken
  by_cases h : env.getenv "LOCAL" ≠ "" ∧ s.vc.Token ≠ ""
  · left
    simp [h]
  · right
    refine ⟨"auth/" ++ s.vc.AuthMethod ++ "/login", ?_⟩
    unfold Login
    rcases hw : env.vaultWrite s.vc.Client ("auth/" ++ s.vc.AuthMethod ++ "/login")
        [("role", .string s.vc.Role), ("jwt", .string s.vc.KubeToken)] s.world with ⟨r, w⟩
    cases r with
    | error e => simp [h, hw]
    | ok secret =>
      cases secret with
      | none => simp [h, hw]
      | some x =>
        cases ha : x.Auth <;> simp [h, hw, ha]

/-- The three steps of `GetKVSecretRetry`: a read, then at most one call of
`NewToken`, then at most one more read. -/
theorem GetKVSecretRetry_cases (p : String) (s : St σ) :
    (((∃ msg, (GetKVSecret env p s).res = .panicked msg) ∨
        ∃ sec, (GetKVSecret env p s).res = .ret (sec, none)) ∧
      GetKVSecretRetry env p s = GetKVSecret env p s) ∨
    (∃ sec e, (GetKVSecret env p s).res = .ret (sec, some e) ∧
      ((∃ msg, (NewToken env (GetKVSecret env p s).st).res = .panicked msg ∧
          GetKVSecretRetry env p s =
            { res := .panicked msg, st := (NewToken env (GetKVSecret env p s).st).st,
              events := (GetKVSecret env p s).events ++
                (NewToken env (GetKVSecret env p s).st).events }) ∨
       (∃ tok te, (NewToken env (GetKVSecret env p s).st).res = .ret (tok, some te) ∧
          GetKVSecretRetry env p s =
            { res := .ret (sec, some te), st := (NewToken env (GetKVSecret env p s).st).st,
              events := (GetKVSecret env p s).events ++
                (NewToken env (GetKVSecret env p s).st).events }) ∨
       (∃ tok, (NewToken env (GetKVSecret env p s).st).res = .ret (tok, none) ∧
          GetKVSecretRetry env p s =
            { res := (GetKVSecret env p (NewToken env (GetKVSecret env p s).st).st).res,
              st := (GetKVSecret env p (NewToken env (GetKVSecret env p s).st).st).st,
              events := (GetKVSecret env p s).events ++
                ((NewToken env (GetKVSecret env p s).st).events ++
                  (GetKVSecret env p (NewToken env (GetKVSecret env p s).st).st).events) }))) := by
  unfold GetKVSecretRetry
  rcases h1 : GetKVSecret env p s with ⟨r1, s1, ev1⟩
  cases r1 with
  | panicked msg =>
    left
    exact ⟨Or.inl ⟨msg, rfl⟩, by simp [h1]⟩
  | ret a =>
    rcases a with ⟨sec, err⟩
    cases err with
    | none =>
      left
      exact ⟨Or.inr ⟨sec, rfl⟩, by simp [h1]⟩
    | some e =>
      right
      refine ⟨sec, e, rfl, ?_⟩
      rcases h2 : NewToken env s1 with ⟨r2, s2, ev2⟩
      cases r2 with
      | panicked msg =>
        left
        exact ⟨msg, rfl, by simp [h1, h2]⟩
      | ret b =>
        rcases b with ⟨tok, terr⟩
        cases terr with
        | some te =>
          right
          left
          exact ⟨tok, te, rfl, by simp [h1, h2]⟩
        | none =>
          right
          right
          refine ⟨tok, rfl, ?_⟩
          rcases h3 : GetKVSecret env p s2 with ⟨r3, s3, ev3⟩
          cases r3 with
          | panicked msg => simp [h1, h2, h3]
          | ret c =>
            rcases c with ⟨sec3, err3⟩
            cases err3 <;> simp [h1, h2, h3]

end RetryLemmas

/-! ## C11: one login and one retry -/

/-- C11: `GetKVSecretRetry` makes the read once and, when it succeeds,
is that read and nothing more. When the first read fails it calls
`NewToken` once; if that fails its error is returned with no further
read; if it succeeds the read is made once more and its result, error
included, is returned. In every case at most two reads and at most one
login reach the secret store. -/
theorem GetKVSecretRetry_spec {σ : Type} (env : Env σ) (p : String) (s : St σ) :
    (∀ sec, (GetKVSecret env p s).res = .ret (sec, none) →
      GetKVSecretRetry env p s = GetKVSecret env p s) ∧
    (∀ sec e, (GetKVSecret env p s).res = .ret (sec, some e) →
      (∀ tok te, (NewToken env (GetKVSecret env p s).st).res = .ret (tok, some te) →
        GetKVSecretRetry env p s =
          { res := .ret (sec, some te), st := (NewToken env (GetKVSecret env p s).st).st,
            events := (GetKVSecret env p s).events ++
              (NewToken env (GetKVSecret env p s).st).events }) ∧
      (∀ tok, (NewToken env (GetKVSecret env p s).st).res = .ret (tok, none) →
        GetKVSecretRetry env p s =
          { res := (GetKVSecret env p (NewToken env (GetKVSecret env p s).st).st).res,
            st := (GetKVSecret env p (NewToken env (GetKVSecret env p s).st).st).st,
            events := (GetKVSecret env p s).events ++
              ((NewToken env (GetKVSecret env p s).st).events ++
                (GetKVSecret env p (NewToken env (GetKVSecret env p s).st).st).events) })) ∧
    (GetKVSecretRetry env p s).events.countP Event.isVaultRead ≤ 2 ∧
    (GetKVSecretRetry env p s).events.countP Event.isVaultWrite ≤ 1 := by
  have hc := GetKVSecretRetry_cases env p s
  have hread : ∀ st : St σ, (GetKVSecret env p st).events.countP Event.isVaultRead ≤ 1 ∧
      (GetKVSecret env p st).events.countP Event.isVaultWrite = 0 := by
    intro st
    rcases GetKVSecret_events env p st with h | h <;> rw [h] <;>
      simp [List.countP_cons, Event.isVaultRead, Event.isVaultWrite]
  have hlogin : ∀ st : St σ, (NewToken env st).events.countP Event.isVaultRead = 0 ∧
      (NewToken env st).events.countP Event.isVaultWrite ≤ 1 := by
    intro st
    rcases NewToken_events env st with h | ⟨path, h⟩ <;> rw [h] <;>
      simp [List.countP_cons, Event.isVaultRead, Event.isVaultWrite]
  have hnot : ∀ sec e, (GetKVSecret env p s).res = .ret (sec, some e) →
      ¬ ((∃ msg, (GetKVSecret env p s).res = .panicked msg) ∨
        ∃ sec2, (GetKVSecret env p s).res = .ret (sec2, none)) := by
    intro sec e h1 h
    rcases h with ⟨msg, h⟩ | ⟨sec2, h⟩ <;> rw [h1] at h <;> cases h
  refine ⟨?_, ?_, ?_, ?_⟩
  · intro sec h1
    rcases hc with ⟨_, h⟩ | ⟨sec2, e2, h2, _⟩
    · exact h
    · rw [h1] at h2
      cases h2
  · intro sec e h1
    rcases hc with ⟨h, _⟩ | ⟨sec2, e2, h2, h3⟩
    · exact absurd h (hnot sec e h1)
    · rw [h1] at h2
      injection h2 with h2
      injection h2 with hs he
      subst hs
      refine ⟨?_, ?_⟩
      · intro tok te ht
        rcases h3 with ⟨msg, hm, _⟩ | ⟨tok2, te2, ht2, heq⟩ | ⟨tok2, ht2, _⟩
        · rw [ht] at hm
          cases hm
        · rw [ht] at ht2
          injection ht2 with ht2
          injection ht2 with _ hte
          injection hte with hte
          subst hte
          exact heq
        · rw [ht] at ht2
          cases ht2
      · intro tok ht
        rcases h3 with ⟨msg, hm, _⟩ | ⟨tok2, te2, ht2, _⟩ | ⟨tok2, ht2, heq⟩
        · rw [ht] at hm
          cases hm
        · rw [ht] at ht2
          cases ht2
        · exact heq
  · rcases hc with ⟨_, h⟩ | ⟨sec2, e2, h2, h3⟩
    · rw [h]
      exact le_trans (hread s).1 (by decide)
    · rcases h3 with ⟨msg, hm, heq⟩ | ⟨tok2, te2, ht2, heq⟩ | ⟨tok2, ht2, heq⟩
      · rw [heq]
        simp only [List.countP_append]
        have := (hread s).1
        have := (hlogin (GetKVSecret env p s).st).1
        omega
      · rw [heq]
        simp only [List.countP_append]
        have := (hread s).1
        have := (hlogin (GetKVSecret env p s).st).1
        omega
      · rw [heq]
        simp only [List.countP_append]
        have := (hread s).1
        have := (hlogin (GetKVSecret env p s).st).1
        have := (hread (NewToken env (GetKVSecret env p s).st).st).1
        omega
  · rcases hc with ⟨_, h⟩ | ⟨sec2, e2, h2, h3⟩
    · rw [h]
      rw [(hread s).2]
      exact Nat.zero_le _
    · rcases h3 with ⟨msg, hm, heq⟩ | ⟨tok2, te2, ht2, heq⟩ | ⟨tok2, ht2, heq⟩
      · rw [heq]
        simp only [List.countP_append]
        have := (hread s).2
        have := (hlogin (GetKVSecret env p s).st).2
        omega
      · rw [heq]
        simp only [List.countP_append]
        have := (hread s).2
        have := (hlogin (GetKVSecret env p s).st).2
        omega
      · rw [heq]
        simp only [List.countP_append]
        have := (hread s).2
        have := (hlogin (GetKVSecret env p s).st).2
        have := (hread (NewToken env (GetKVSecret env p s).st).st).2
        omega

/-- Witness for C11: with a client that holds no token the first read is
refused, one login follows, and the second read is the result. -/
theorem GetKVSecretRetry_spec_witness :
    GetKVSecretRetry demoEnv "bob@proj.iam.gserviceaccount.com" loggedOutState =
      { res := (GetKVSecret demoEnv "bob@proj.iam.gserviceaccount.com"
          (NewToken demoEnv
            (GetKVSecret demoEnv "bob@proj.iam.gserviceaccount.com" loggedOutState).st).st).res,
        st := (GetKVSecret demoEnv "bob@proj.iam.gserviceaccount.com"
          (NewToken demoEnv
            (GetKVSecret demoEnv "bob@proj.iam.gserviceaccount.com" loggedOutState).st).st).st,
        events := (GetKVSecret demoEnv "bob@proj.iam.gserviceaccount.com" loggedOutState).events ++
          ((NewToken demoEnv
            (GetKVSecret demoEnv "bob@proj.iam.gserviceaccount.com" loggedOutState).st).events ++
           (GetKVSecret demoEnv "bob@proj.iam.gserviceaccount.com"
            (NewToken demoEnv
              (GetKVSecret demoEnv "bob@proj.iam.gserviceaccount.com" loggedOutState).st).st).events) } :=
  ((GetKVSecretRetry_spec demoEnv "bob@proj.iam.gserviceaccount.com" loggedOutState).2.1
    none "permission denied" rfl).2 "s.fresh" rfl

/-! ## C12: what a read returns -/

/-- C12, as stated, fails: a read that succeeds with a document whose
`data` entry is an empty map is returned as an empty map without error. -/
theorem GetKVSecret_empty_map_succeeds :
    (emptyDataEnv.vaultRead demoState.vc.Client ("devops/data/stratus-dev/" ++ "alice")
        demoState.world).1 = .ok (some { Data := some [("data", .object [])] }) ∧
    (GetKVSecret emptyDataEnv "alice" demoState).res = .ret (some [], none) :=
  ⟨rfl, rfl⟩

/-- A read that succeeds with a document that has no `data` entry ends in
a panic. -/
theorem GetKVSecret_no_data_panics :
    (noDataEnv.vaultRead demoState.vc.Client ("devops/data/stratus-dev/" ++ "alice")
        demoState.world).1 =
      .ok (some { Data := some [("metadata", .object [("deletion_time", .string "2021")])] }) ∧
    (GetKVSecret noDataEnv "alice" demoState).res =
      .panicked "interface conversion: interface is not map[string]interface" :=
  ⟨rfl, rfl⟩

/-- C12, amended: for a non-empty path the read is issued once, at
`devops/data/stratus-dev/` followed by the path. When it succeeds with a
nil secret or a secret with nil `Data`, `GetKVSecret` returns no map and
the error `secret not found`; when `Data` has a `data` entry that is a
map, that map is returned without error, also when it is empty. -/
theorem GetKVSecret_nonempty {σ : Type} (env : Env σ) (p : String) (s : St σ) (hp : p ≠ "") :
    (GetKVSecret env p s).events = [.vaultRead ("devops/data/stratus-dev/" ++ p)] ∧
    (GetKVSecret env p s).st =
      { s with world :=
          (env.vaultRead s.vc.Client ("devops/data/stratus-dev/" ++ p) s.world).2 } ∧
    ((env.vaultRead s.vc.Client ("devops/data/stratus-dev/" ++ p) s.world).1 = .ok none →
      (GetKVSecret env p s).res = .ret (none, some "secret not found")) ∧
    (∀ x, (env.vaultRead s.vc.Client ("devops/data/stratus-dev/" ++ p) s.world).1 = .ok (some x) →
      x.Data = none → (GetKVSecret env p s).res = .ret (none, some "secret not found")) ∧
    (∀ x d kvs,
      (env.vaultRead s.vc.Client ("devops/data/stratus-dev/" ++ p) s.world).1 = .ok (some x) →
      x.Data = some d → d.lookup "data" = some (.object kvs) →
      (GetKVSecret env p s).res = .ret (some kvs, none)) := by
  have h := GetKVSecret_apply env p s hp
  unfold kvRoot at h
  refine ⟨?_, ?_, ?_, ?_, ?_⟩
  · rw [h]
  · rw [h]
  · intro hr
    rw [h]
    simp [hr]
  · intro x hr hd
    rw [h]
    simp [hr, hd]
  · intro x d kvs hr hd hl
    rw [h]
    simp [hr, hd, hl]

/-- Witness for C12: the stored key of Bob is read at the tenant path and
returned. -/
theorem GetKVSecret_nonempty_witness :
    (GetKVSecret demoEnv "bob@proj.iam.gserviceaccount.com" demoState).events =
      [.vaultRead "devops/data/stratus-dev/bob@proj.iam.gserviceaccount.com"] ∧
    (GetKVSecret demoEnv "bob@proj.iam.gserviceaccount.com" demoState).res =
      .ret (some [("client_email", .string "bob@proj.iam.gserviceaccount.com")], none) :=
  ⟨(GetKVSecret_nonempty demoEnv "bob@proj.iam.gserviceaccount.com" demoState (by decide)).1,
    (GetKVSecret_nonempty demoEnv "bob@proj.iam.gserviceaccount.com" demoState (by decide)).2.2.2.2
      _ _ _ rfl rfl rfl⟩

/-! ## C13: order of the snapshot -/

section LookupLemmas

theorem FindIDinMap_ok_mem (im : IAMMap) (iamMap : List IAMMap) (i : IAMMap)
    (h : FindIDinMap im iamMap = .ok i) : i ∈ iamMap := by
  induction iamMap with
  | nil => simp [FindIDinMap] at h
  | cons iam rest ih =>
    unfold FindIDinMap at h
    split at h
    · injection h with h
      subst h
      exact List.mem_cons_self _ _
    · exact List.mem_cons_of_mem _ (ih h)

theorem FindIDinMap_error_iff (im : IAMMap) (iamMap : List IAMMap) :
    FindIDinMap im iamMap = .error "identity not found" ↔
      ∀ a ∈ iamMap, ¬ (im.Source.ID = a.Source.ID ∧ im.Target.ID = a.Target.ID) := by
  induction iamMap with
  | nil => simp [FindIDinMap]
  | cons iam rest ih =>
    unfold FindIDinMap
    by_cases hm : im.Source.ID = iam.Source.ID ∧ im.Target.ID = iam.Target.ID
    · rw [if_pos hm]
      constructor
      · intro h
        cases h
      · intro h
        exact absurd hm (h iam (List.mem_cons_self _ _))
    · rw [if_neg hm, ih]
      constructor
      · intro h a ha
        rcases List.mem_cons.mp ha with ha | ha
        · subst ha
          exact hm
        · exact h a ha
      · intro h a ha
        exact h a (List.mem_cons_of_mem _ ha)

theorem FindIDinMap_error_msg (im : IAMMap) (iamMap : List IAMMap) (e : Error)
    (h : FindIDinMap im iamMap = .error e) : e = "identity not found" := by
  induction iamMap with
  | nil =>
    simp [FindIDinMap] at h
    exact h.symm
  | cons iam rest ih =>
    unfold FindIDinMap at h
    split at h
    · cases h
    · exact ih h

end LookupLemmas

/-- C13, as stated, fails: two snapshots that hold the same two mappings in
opposite orders, both with the ids of the request, give mappings with
different target credentials. -/
theorem FindIDinMap_order_matters :
    List.Perm [prodMapping, stagingMapping] [stagingMapping, prodMapping] ∧
    FindIDinMap appsRequest [prodMapping, stagingMapping] = .ok prodMapping ∧
    FindIDinMap appsRequest [stagingMapping, prodMapping] = .ok stagingMapping ∧
    prodMapping.Target.Credentials ≠ stagingMapping.Target.Credentials := by
  refine ⟨List.Perm.swap _ _ _, rfl, rfl, ?_⟩
  simp [prodMapping, stagingMapping]

/-- C13, amended: on two snapshots that are permutations of one another
`FindIDinMap` fails on both or succeeds on both, and it returns the same
outcome on both when the mappings of the snapshot that have the
`source.id` and `target.id` of the request are all equal. -/
theorem FindIDinMap_perm (im : IAMMap) (l1 l2 : List IAMMap) (h : l1.Perm l2) :
    ((∃ e, FindIDinMap im l1 = .error e) ↔ (∃ e, FindIDinMap im l2 = .error e)) ∧
    ((∀ a ∈ l1, ∀ b ∈ l1,
        (im.Source.ID = a.Source.ID ∧ im.Target.ID = a.Target.ID) →
        (im.Source.ID = b.Source.ID ∧ im.Target.ID = b.Target.ID) → a = b) →
      FindIDinMap im l1 = FindIDinMap im l2) := by
  have herr : ∀ l l' : List IAMMap, l.Perm l' → (∃ e, FindIDinMap im l = .error e) →
      FindIDinMap im l' = .error "identity not found" := by
    intro l l' hp ⟨e, he⟩
    have he2 := FindIDinMap_error_msg im l e he
    subst he2
    rw [FindIDinMap_error_iff] at he ⊢
    intro a ha
    exact he a (hp.symm.subset ha)
  refine ⟨⟨fun h1 => ⟨_, herr l1 l2 h h1⟩, fun h2 => ⟨_, herr l2 l1 h.symm h2⟩⟩, ?_⟩
  intro huniq
  cases h1 : FindIDinMap im l1 with
  | error e =>
    rw [herr l1 l2 h ⟨e, h1⟩, FindIDinMap_error_msg im l1 e h1]
  | ok i1 =>
    cases h2 : FindIDinMap im l2 with
    | error e =>
      rw [herr l2 l1 h.symm ⟨e, h2⟩] at h1
      cases h1
    | ok i2 =>
      have m1 := FindIDinMap_ok_mem im l1 i1 h1
      have m2 := h.symm.subset (FindIDinMap_ok_mem im l2 i2 h2)
      rw [huniq i1 m1 i2 m2 (FindIDinMap_ok_ids im l1 i1 h1) (FindIDinMap_ok_ids im l2 i2 h2)]

/-- Witness for C13: the snapshot of boundary scenario 1 with a second,
unrelated mapping gives the same outcome in both orders. -/
theorem FindIDinMap_perm_witness :
    FindIDinMap crossProviderRequest [recordA, recordB] =
      FindIDinMap crossProviderRequest [recordB, recordA] :=
  (FindIDinMap_perm crossProviderRequest [recordA, recordB] [recordB, recordA]
    (List.Perm.swap _ _ _)).2 (by
      intro a ha b hb h1 h2
      simp only [List.mem_cons, List.mem_singleton, List.not_mem_nil, or_false] at ha hb
      rcases ha with ha | ha <;> rcases hb with hb | hb <;> subst ha <;> subst hb
      · rfl
      · exact absurd h2.1 (by decide)
      · exact absurd h1.1 (by decide)
      · rfl)

/-! ## Lemmas on the policy loader -/

section LoaderLemmas

variable {σ : Type} (cenv : ConfigEnv σ)

@[simp] theorem M.observe_apply {α : Type} (f : σ → α) (s : St σ) :
    (M.observe f : M σ α) s = { res := .ret (f s.world), st := s, events := [] } := rfl

/-- One round of the loop of `loadConfigPaths`. -/
theorem loadConfigPathsFrom_cons (cp : String) (rest : List String) (sc : List IAMMap)
    (s : St σ) :
    loadConfigPathsFrom cenv (cp :: rest) sc s =
      match readRecords cenv s.world cp with
      | .error e => { res := .ret (sc, some e), st := s, events := [] }
      | .ok tsc => loadConfigPathsFrom cenv rest (sc ++ tsc) s := by
  unfold readRecords
  rw [loadConfigPathsFrom]
  cases hr : cenv.readFile s.world cp with
  | error e => simp [hr]
  | ok fd =>
    cases hy : cenv.yamlUnmarshal fd with
    | error e => simp [hr, hy]
    | ok tsc => simp [hr, hy]

theorem loadConfigPathsFrom_nil (sc : List IAMMap) (s : St σ) :
    loadConfigPathsFrom cenv [] sc s = { res := .ret (sc, none), st := s, events := [] } := by
  rw [loadConfigPathsFrom]
  rfl

/-- The loop of `loadConfigPaths` leaves the process state alone. -/
theorem loadConfigPathsFrom_st (cps : List String) (sc : List IAMMap) (s : St σ) :
    (loadConfigPathsFrom cenv cps sc s).st = s := by
  induction cps generalizing sc with
  | nil => rw [loadConfigPathsFrom_nil]
  | cons cp rest ih =>
    rw [loadConfigPathsFrom_cons]
    cases readRecords cenv s.world cp with
    | error e => rfl
    | ok tsc => exact ih _

/-- The loop of `loadConfigPaths` ends without error exactly when every
file left gives records, and then returns them after those gathered. -/
theorem loadConfigPathsFrom_ok (cps : List String) (sc out : List IAMMap) (s : St σ) :
    (loadConfigPathsFrom cenv cps sc s).res = .ret (out, none) ↔
      ∃ rs, List.Forall₂ (fun cp r => readRecords cenv s.world cp = .ok r) cps rs ∧
        out = sc ++ rs.flatten := by
  induction cps generalizing sc with
  | nil =>
    rw [loadConfigPathsFrom_nil]
    constructor
    · intro h
      injection h with h
      injection h with h
      exact ⟨[], List.Forall₂.nil, by simp [h]⟩
    · rintro ⟨rs, hf, ho⟩
      cases hf
      simp [ho]
  | cons cp rest ih =>
    rw [loadConfigPathsFrom_cons]
    cases hr : readRecords cenv s.world cp with
    | error e =>
      constructor
      · intro h
        simp at h
      · rintro ⟨rs, hf, _⟩
        cases hf with
        | cons h1 _ =>
          rw [hr] at h1
          cases h1
    | ok tsc =>
      simp only []
      rw [ih]
      constructor
      · rintro ⟨rs, hf, ho⟩
        exact ⟨tsc :: rs, List.Forall₂.cons hr hf, by simp [ho]⟩
      · rintro ⟨rs, hf, ho⟩
        cases hf with
        | cons h1 h2 =>
          rw [hr] at h1
          injection h1 with h1
          subst h1
          exact ⟨_, h2, by simp [ho]⟩

/-- The loop of `loadConfigPaths` ends with an error exactly at the first
file left that gives none, and returns the records gathered before it. -/
theorem loadConfigPathsFrom_error (cps : List String) (sc out : List IAMMap) (e : Error)
    (s : St σ) :
    (loadConfigPathsFrom cenv cps sc s).res = .ret (out, some e) ↔
      ∃ pre cp post rs, cps = pre ++ cp :: post ∧
        List.Forall₂ (fun c r => readRecords cenv s.world c = .ok r) pre rs ∧
        readRecords cenv s.world cp = .error e ∧ out = sc ++ rs.flatten := by
  induction cps generalizing sc with
  | nil =>
    rw [loadConfigPathsFrom_nil]
    constructor
    · intro h
      simp at h
    · rintro ⟨pre, cp, post, rs, h, _⟩
      simp at h
  | cons c rest ih =>
    rw [loadConfigPathsFrom_cons]
    cases hr : readRecords cenv s.world c with
    | error e2 =>
      constructor
      · intro h
        simp at h
        obtain ⟨h1, h2⟩ := h
        subst h1
        subst h2
        exact ⟨[], c, rest, [], rfl, List.Forall₂.nil, hr, by simp⟩
      · rintro ⟨pre, cp, post, rs, h, hf, he, ho⟩
        cases pre with
        | nil =>
          simp at h
          obtain ⟨h1, _⟩ := h
          subst h1
          rw [hr] at he
          injection he with he
          subst he
          cases hf
          simp [ho]
        | cons c2 pre2 =>
          simp at h
          obtain ⟨h1, _⟩ := h
          subst h1
          cases hf with
          | cons h1 _ =>
            rw [hr] at h1
            cases h1
    | ok tsc =>
      simp only []
      rw [ih]
      constructor
      · rintro ⟨pre, cp, post, rs, h, hf, he, ho⟩
        exact ⟨c :: pre, cp, post, tsc :: rs, by simp [h], List.Forall₂.cons hr hf, he,
          by simp [ho]⟩
      · rintro ⟨pre, cp, post, rs, h, hf, he, ho⟩
        cases pre with
        | nil =>
          simp at h
          obtain ⟨h1, _⟩ := h
          subst h1
          rw [hr] at he
          cases he
        | cons c2 pre2 =>
          simp at h
          obtain ⟨h1, h2⟩ := h
          subst h1
          cases hf with
          | cons h1 h3 =>
            rw [hr] at h1
            injection h1 with h1
            subst h1
            exact ⟨pre2, cp, post, _, h2, h3, he, by simp [ho]⟩

/-- A round of the refresh loop whose load fails ends the process with the
snapshot as it was. -/
theorem refreshLoop_failed (pt fuel : Nat) (IdMaps sc : List IAMMap) (e : Error) (s : St σ)
    (h : (loadSyncConfigs cenv s).res = .ret (sc, some e)) :
    refreshLoop cenv pt (fuel + 1) IdMaps s =
      { res := .ret (.exited IdMaps e), st := (loadSyncConfigs cenv s).st,
        events := (loadSyncConfigs cenv s).events } := by
  rw [refreshLoop]
  simp [M.bind_apply, h]

/-- A round of the refresh loop whose load succeeds publishes the records
loaded and goes on. -/
theorem refreshLoop_loaded (pt fuel : Nat) (IdMaps sc : List IAMMap) (s : St σ)
    (h : (loadSyncConfigs cenv s).res = .ret (sc, none)) :
    (refreshLoop cenv pt (fuel + 1) IdMaps s).res =
      (refreshLoop cenv pt fuel sc
        { (loadSyncConfigs cenv s).st with
          world := cenv.sleep pt (loadSyncConfigs cenv s).st.world }).res := by
  rw [refreshLoop]
  simp [M.bind_apply, h]

/-- The snapshot held by the refresh loop is the one it started from or
the records of a load that succeeded. -/
theorem refreshLoop_IdMaps (pt fuel : Nat) (IdMaps : List IAMMap) (s : St σ) (r : Refresh)
    (h : (refreshLoop cenv pt fuel IdMaps s).res = .ret r) :
    r.IdMaps = IdMaps ∨
      ∃ s2 sc, (loadSyncConfigs cenv s2).res = .ret (sc, none) ∧ r.IdMaps = sc := by
  induction fuel generalizing IdMaps s with
  | zero =>
    rw [refreshLoop] at h
    simp at h
    subst h
    exact Or.inl rfl
  | succ n ih =>
    cases hl : (loadSyncConfigs cenv s).res with
    | panicked msg =>
      rw [refreshLoop] at h
      simp [M.bind_apply, hl] at h
    | ret a =>
      rcases a with ⟨sc, err⟩
      cases err with
      | some e =>
        rw [refreshLoop_failed cenv pt n IdMaps sc e s hl] at h
        simp at h
        subst h
        exact Or.inl rfl
      | none =>
        rw [refreshLoop_loaded cenv pt n IdMaps sc s hl] at h
        rcases ih sc _ h with h2 | h2
        · exact Or.inr ⟨s, sc, hl, h2⟩
        · exact Or.inr h2

theorem loadConfigPathsFrom_returns (cps : List String) (sc : List IAMMap) (s : St σ) :
    ∃ r, (loadConfigPathsFrom cenv cps sc s).res = .ret r := by
  induction cps generalizing sc with
  | nil =>
    rw [loadConfigPathsFrom_nil]
    exact ⟨_, rfl⟩
  | cons cp rest ih =>
    rw [loadConfigPathsFrom_cons]
    cases readRecords cenv s.world cp with
    | error e => exact ⟨_, rfl⟩
    | ok tsc => exact ih _

end LoaderLemmas

/-! ## C15: loading and publishing the policy -/

/-- C15: `loadConfigPaths` always returns and leaves the state alone. It
returns without error exactly when every file of the list is read and
parses, and then the result is the concatenation, in the order of the
list, of the records of each file; it returns an error exactly at the
first file that is not read or does not parse, with the records of the
files before it. A round of `RefreshSyncConfigs` whose load fails ends
the process with `IdMaps` as it was, and `IdMaps` only ever holds its
first value or the records of a load that succeeded. -/
theorem loadConfigPaths_spec {σ : Type} (cenv : ConfigEnv σ) (cps : List String) (s : St σ) :
    (∃ r, (loadConfigPaths cenv cps s).res = .ret r) ∧
    (loadConfigPaths cenv cps s).st = s ∧
    (∀ sc, (loadConfigPaths cenv cps s).res = .ret (sc, none) ↔
      ∃ rs, List.Forall₂ (fun cp r => readRecords cenv s.world cp = .ok r) cps rs ∧
        sc = rs.flatten) ∧
    (∀ sc e, (loadConfigPaths cenv cps s).res = .ret (sc, some e) ↔
      ∃ pre cp post rs, cps = pre ++ cp :: post ∧
        List.Forall₂ (fun c r => readRecords cenv s.world c = .ok r) pre rs ∧
        readRecords cenv s.world cp = .error e ∧ sc = rs.flatten) ∧
    (∀ pt fuel IdMaps sc e, (loadSyncConfigs cenv s).res = .ret (sc, some e) →
      (refreshLoop cenv pt (fuel + 1) IdMaps s).res = .ret (.exited IdMaps e)) ∧
    (∀ fuel IdMaps r, (RefreshSyncConfigs cenv fuel IdMaps s).res = .ret r →
      r.IdMaps = IdMaps ∨
        ∃ s2 sc, (loadSyncConfigs cenv s2).res = .ret (sc, none) ∧ r.IdMaps = sc) := by
  refine ⟨?_, ?_, ?_, ?_, ?_, ?_⟩
  · exact loadConfigPathsFrom_returns cenv cps [] s
  · exact loadConfigPathsFrom_st cenv cps [] s
  · intro sc
    unfold loadConfigPaths
    rw [loadConfigPathsFrom_ok]
    simp
  · intro sc e
    unfold loadConfigPaths
    rw [loadConfigPathsFrom_error]
    simp
  · intro pt fuel IdMaps sc e h
    rw [refreshLoop_failed cenv pt fuel IdMaps sc e s h]
  · intro fuel IdMaps r h
    unfold RefreshSyncConfigs at h
    cases hp : cenv.parseDuration (cenv.getenv "CONFIG_REFRESH_INTERVAL") with
    | error perr =>
      simp [hp] at h
      subst h
      exact Or.inl rfl
    | ok pt =>
      simp only [hp] at h
      exact refreshLoop_IdMaps cenv pt fuel IdMaps s r h

/-- Witness for C15: the two policy files of the example are loaded in
the order of the list. -/
theorem loadConfigPaths_spec_witness :
    (loadConfigPaths demoConfigEnv ["policies/a.yaml", "policies/b.yaml"] demoState).res =
      .ret ([recordA, recordB], none) :=
  ((loadConfigPaths_spec demoConfigEnv ["policies/a.yaml", "policies/b.yaml"] demoState).2.2.1
    [recordA, recordB]).mpr
    ⟨[[recordA], [recordB]],
      List.Forall₂.cons rfl (List.Forall₂.cons rfl List.Forall₂.nil), rfl⟩


/-! ## C14: the correlation token given to the verifier and the minter -/

/-- C14 fails on the code: a request with header `x-request-id:
caller-token` whose body decodes and carries `request_id` members in its
source and target has `Valid` called on a source with `RequestID`
`forged-source` and `GetCredentials` on a target with `RequestID`
`forged-target`. -/
theorem handle_request_ids_forged :
    Header.Get forgedIdsRequest.Header "x-request-id" = "caller-token" ∧
    (decoded demoEnv forgedIdsRequest demoState).2 = none ∧
    (handleIdentityRequest demoEnv forgedIdsRequest happySnapshot demoState).events.filterMap
      Event.verifiedRequestID = ["forged-source"] ∧
    (handleIdentityRequest demoEnv forgedIdsRequest happySnapshot demoState).events.filterMap
      Event.mintedRequestID = ["forged-target"] := by
  refine ⟨?_, ?_, ?_, ?_⟩ <;> decide

/-! ## C16: the minter is chosen by the request -/

section DispatchLemmas

variable {σ : Type} (env : Env σ)

/-- The calls of `GetCredentials` on a target tagged `gcp`. -/
theorem GetCredentials_events_gcp (im : IAMMap) (s : St σ) (h : im.Target.Provider = "gcp") :
    (GetCredentials env im s).events =
      .GetCredentials im :: (GetGCPSAFromVault env im.Target s).events := by
  unfold GetCredentials
  rw [M.events_emit_bind]
  simp only [h, ProviderGCP, if_true, M.bind_apply]
  cases hr : (GetGCPSAFromVault env im.Target s).res <;> simp [hr]

/-- The calls of `GetCredentials` on a target tagged `aws`. -/
theorem GetCredentials_events_aws (im : IAMMap) (s : St σ) (h : im.Target.Provider = "aws") :
    (GetCredentials env im s).events =
      .GetCredentials im :: (CreateAWSSession env im.Target s).events := by
  unfold GetCredentials
  rw [M.events_emit_bind]
  simp only [h, ProviderGCP, ProviderAWS, if_true, M.bind_apply]
  cases hr : (CreateAWSSession env im.Target s).res <;> simp [hr]

/-- The calls of `GetCredentials` on a target tagged `k8s`. -/
theorem GetCredentials_events_k8s (im : IAMMap) (s : St σ) (h : im.Target.Provider = "k8s") :
    (GetCredentials env im s).events =
      .GetCredentials im :: (GetK8SSSAFromVault env im.Target s).events := by
  unfold GetCredentials
  rw [M.events_emit_bind]
  simp only [h, ProviderGCP, ProviderAWS, ProviderK8S, if_true, M.bind_apply]
  cases hr : (GetK8SSSAFromVault env im.Target s).res <;> simp [hr]

end DispatchLemmas

/-- C16: once the source is verified and the lookup returns `i`, the map
given to `GetCredentials` has the provider and the region of the target of
the request body, whatever those of `i` are, and the minter entered is
the one of that provider, on that target: `GetGCPSAFromVault` for `gcp`,
`CreateAWSSession` for `aws`, `GetK8SSSAFromVault` for `k8s`. -/
theorem mint_dispatch_by_request {σ : Type} (env : Env σ) (r : Request)
    (IdMaps : List IAMMap) (s : St σ) (i : IAMMap)
    (hd : (decoded env r s).2 = none) (hv : (verified env r s).res = .ret true)
    (hf : FindIDinMap (decoded env r s).1 IdMaps = .ok i) :
    (readdRequest (decoded env r s).1 i).1.Target.Provider =
      (decoded env r s).1.Target.Provider ∧
    (readdRequest (decoded env r s).1 i).1.Target.Region = (decoded env r s).1.Target.Region ∧
    (handleIdentityRequest env r IdMaps s).events =
      (correlate env r s).events ++ ((verified env r s).events ++
        (.FindIDinMap (decoded env r s).1 IdMaps :: (minted env r s i).events)) ∧
    ((decoded env r s).1.Target.Provider = "gcp" →
      ∃ rest, (minted env r s i).events =
          .GetCredentials (readdRequest (decoded env r s).1 i).1 ::
            .GetGCPSAFromVault (readdRequest (decoded env r s).1 i).1.Target :: rest ∧
        ∀ e ∈ rest, e.isExternal = true) ∧
    ((decoded env r s).1.Target.Provider = "aws" →
      ∃ rest, (minted env r s i).events =
          .GetCredentials (readdRequest (decoded env r s).1 i).1 ::
            .CreateAWSSession (readdRequest (decoded env r s).1 i).1.Target :: rest ∧
        ∀ e ∈ rest, e.isExternal = true) ∧
    ((decoded env r s).1.Target.Provider = "k8s" →
      ∃ rest, (minted env r s i).events =
          .GetCredentials (readdRequest (decoded env r s).1 i).1 ::
            .GetK8SSSAFromVault (readdRequest (decoded env r s).1 i).1.Target :: rest ∧
        ∀ e ∈ rest, e.isExternal = true) := by
  refine ⟨rfl, rfl, ?_, ?_, ?_, ?_⟩
  · rw [handle_authorized env r IdMaps s i hd hv hf]
  · intro hp
    obtain ⟨rest, h, hr⟩ :=
      GetGCPSAFromVault_events env (readdRequest (decoded env r s).1 i).1.Target
        (verified env r s).st
    refine ⟨rest, ?_, hr⟩
    unfold minted
    rw [GetCredentials_events_gcp env (readdRequest (decoded env r s).1 i).1
      (verified env r s).st hp, h]
  · intro hp
    obtain ⟨rest, h, hr⟩ :=
      CreateAWSSession_events env (readdRequest (decoded env r s).1 i).1.Target
        (verified env r s).st
    refine ⟨rest, ?_, hr⟩
    unfold minted
    rw [GetCredentials_events_aws env (readdRequest (decoded env r s).1 i).1
      (verified env r s).st hp, h]
  · intro hp
    obtain ⟨rest, h, hr⟩ :=
      GetK8SSSAFromVault_events env (readdRequest (decoded env r s).1 i).1.Target
        (verified env r s).st
    refine ⟨rest, ?_, hr⟩
    unfold minted
    rw [GetCredentials_events_k8s env (readdRequest (decoded env r s).1 i).1
      (verified env r s).st hp, h]

/-- Witness for C16: the request of boundary scenario 1 tagged `gcp`
matches the mapping stored with the tag `aws` and enters the GCP minter,
while the request tagged `aws` enters the AWS minter. -/
theorem mint_dispatch_by_request_witness :
    (∃ rest, (minted demoEnv gcpTaggedRequest demoState recordA).events =
        .GetCredentials (readdRequest (decoded demoEnv gcpTaggedRequest demoState).1 recordA).1 ::
          .GetGCPSAFromVault
            (readdRequest (decoded demoEnv gcpTaggedRequest demoState).1 recordA).1.Target :: rest ∧
      ∀ e ∈ rest, e.isExternal = true) ∧
    (readdRequest (decoded demoEnv gcpTaggedRequest demoState).1 recordA).1.Target.Region =
      "eu-west-1" ∧
    (handleIdentityRequest demoEnv gcpTaggedRequest happySnapshot demoState).events.filterMap
      Event.minterName = ["GetGCPSAFromVault"] ∧
    (handleIdentityRequest demoEnv happyRequest happySnapshot demoState).events.filterMap
      Event.minterName = ["CreateAWSSession"] :=
  ⟨(mint_dispatch_by_request demoEnv gcpTaggedRequest happySnapshot demoState recordA
      (by decide) (by decide) rfl).2.2.2.1 (by decide),
    by decide, by decide, by decide⟩

/-! ## C8: the Kubernetes verifier on a validation record without data -/

/-- C8 fails on the code: for Alice as a Kubernetes source, with a bag that
decodes and a non-empty `jwt`, when the read of the validation record at
`prod/validation` succeeds with a document that has no `data` map,
`ValidK8S` ends in the panic of `GetKVSecret` and returns neither true nor
false. -/
theorem ValidK8S_panics_without_data :
    aliceK8S.Provider = "k8s" ∧
    noDataEnv.decodeK8SCreds aliceK8S.Credentials =
      .ok { ClusterName := "prod", JWT := "alice-jwt" } ∧
    (noDataEnv.vaultRead demoState.vc.Client "devops/data/stratus-dev/prod/validation"
        demoState.world).1 =
      .ok (some { Data := some [("metadata", .object [("deletion_time", .string "2021")])] }) ∧
    (ValidK8S noDataEnv aliceK8S demoState).res =
      .panicked "interface conversion: interface is not map[string]interface" ∧
    (ValidK8S noDataEnv aliceK8S demoState).res ≠ .ret false ∧
    (ValidK8S noDataEnv aliceK8S demoState).res ≠ .ret true := by
  refine ⟨rfl, rfl, rfl, ?_, ?_, ?_⟩ <;> decide

end Stratus
